import Mathlib

/-!
Verification of the data-aggregation core of the coffee-sales dashboard
(`src/src/CoffeeDashboard.jsx`): row normalization, filtering, and the
aggregation pipeline (KPIs, per-slot breakdowns, top-3 rankings).

JavaScript numbers are modelled as exact rationals extended with NaN and the
two signed infinities.  Every IEEE double other than NaN and the infinities
denotes an exact rational (in fact an exact decimal), so this model is
faithful for every value the dashboard pipeline can hold; arithmetic is
modelled exactly rather than with binary rounding.
-/

/-- A JavaScript number: NaN, the two infinities, or a finite value modelled
as an exact rational. -/
inductive JSNum where
  | nan
  | inf
  | ninf
  | fin (q : ℚ)
deriving DecidableEq, Repr

/-- A spreadsheet cell / JS object field value as produced by
`XLSX.utils.sheet_to_json` and passed around the dashboard: absent
(`undefined`), `null`, a string, or a number. -/
inductive Cell where
  | undef
  | null
  | str (s : String)
  | num (n : JSNum)
deriving DecidableEq, Repr

/-- JS boolean coercion of a number: `0`, `-0` and `NaN` are falsy. -/
def numTruthy : JSNum → Bool
  | .nan => false
  | .inf => true
  | .ninf => true
  | .fin q => decide (q ≠ 0)

/-- JS boolean coercion of a value: `undefined`, `null`, `''`, `0`, `NaN`
are falsy. -/
def cellTruthy : Cell → Bool
  | Cell.undef => false
  | .null => false
  | .str s => decide (s ≠ "")
  | .num n => numTruthy n

/-- JS `+` on numbers (IEEE semantics over the extended rationals):
NaN propagates, opposite infinities give NaN. -/
def jsAdd : JSNum → JSNum → JSNum
  | .nan, _ => .nan
  | _, .nan => .nan
  | .inf, .ninf => .nan
  | .ninf, .inf => .nan
  | .inf, _ => .inf
  | _, .inf => .inf
  | .ninf, _ => .ninf
  | _, .ninf => .ninf
  | .fin a, .fin b => .fin (a + b)

/-- JS `>` on numbers: any comparison involving NaN is false. -/
def jsGt : JSNum → JSNum → Bool
  | .nan, _ => false
  | _, .nan => false
  | .inf, .inf => false
  | .inf, _ => true
  | _, .inf => false
  | .ninf, _ => false
  | .fin _, .ninf => true
  | .fin a, .fin b => decide (b < a)

/-- JS `>=` on numbers: any comparison involving NaN is false. -/
def jsGe : JSNum → JSNum → Bool
  | .nan, _ => false
  | _, .nan => false
  | .inf, _ => true
  | _, .inf => false
  | _, .ninf => true
  | .ninf, _ => false
  | .fin a, .fin b => decide (b ≤ a)

/-- JS division of a number by a positive integer count (the only division
the dashboard performs; the zero-count case is guarded out by the code). -/
def jsDivNat : JSNum → ℕ → JSNum
  | .nan, _ => .nan
  | .inf, _ => .inf
  | .ninf, _ => .ninf
  | .fin q, n => .fin (q / n)

/-- JS `x || y` specialised to numbers: `x` if truthy, else `y`. -/
def jsOrNum (a b : JSNum) : JSNum := if numTruthy a then a else b

/-- `Number(x.toFixed(2))` on a finite value: round to 2 decimal places,
ties away from the smaller value (ECMAScript picks the larger candidate). -/
def qToFixed2 (q : ℚ) : ℚ := (⌊q * 100 + 1 / 2⌋ : ℤ) / 100

/-- `Number(x.toFixed(2))`: `NaN.toFixed(2) = "NaN"` and
`(±Infinity).toFixed(2) = "±Infinity"` round-trip through `Number`
back to themselves. -/
def numToFixed2 : JSNum → JSNum
  | .nan => .nan
  | .inf => .inf
  | .ninf => .ninf
  | .fin q => .fin (qToFixed2 q)

/-- ASCII decimal digit test. -/
def isAsciiDigit (c : Char) : Bool := decide ('0' ≤ c) && decide (c ≤ '9')

/-- Value of a decimal digit character. -/
def digVal (c : Char) : ℕ := c.toNat - '0'.toNat

/-- Value of a string of decimal digits. -/
def digitsVal (l : List Char) : ℕ := l.foldl (fun a c => 10 * a + digVal c) 0

/-- JS whitespace skipped by `parseFloat` and trimmed by `Number(string)`
(ASCII whitespace plus no-break space and BOM; other exotic Unicode space
code points never occur in the dashboard's inputs). -/
def isJsSpace (c : Char) : Bool :=
  decide (c = ' ') || decide (c = '\t') || decide (c = '\n') || decide (c = '\r') ||
    decide (c = '\x0b') || decide (c = '\x0c') || decide (c = '\u00A0') ||
    decide (c = '\uFEFF')

/-- The exponent part accepted by `parseFloat` after the digits: `e`/`E`,
optional sign, digits; ignored entirely when no digit follows. -/
def floatExpVal (rest : List Char) : ℤ :=
  if decide (rest.head? = some 'e') || decide (rest.head? = some 'E') then
    let r := rest.tail
    let sgnE : ℤ := if r.head? = some '-' then -1 else 1
    let r2 := if decide (r.head? = some '-') || decide (r.head? = some '+') then r.tail else r
    let ds := r2.takeWhile isAsciiDigit
    if ds.isEmpty then 0 else sgnE * (digitsVal ds : ℤ)
  else 0

/-- JS `parseFloat` over exact rationals: skip leading whitespace, optional
sign, then the longest prefix that is `Infinity` or a decimal literal
(`digits [. digits] [exponent]` or `. digits [exponent]`); no valid prefix
gives NaN. -/
def parseFloatChars (cs0 : List Char) : JSNum :=
  let cs1 := cs0.dropWhile isJsSpace
  let sgn : ℚ := if cs1.head? = some '-' then -1 else 1
  let cs := if decide (cs1.head? = some '-') || decide (cs1.head? = some '+') then cs1.tail else cs1
  if cs.take 8 = "Infinity".data then
    if sgn = -1 then JSNum.ninf else JSNum.inf
  else
    let intDigs := cs.takeWhile isAsciiDigit
    let rest1 := cs.drop intDigs.length
    let fracDigs :=
      if rest1.head? = some '.' then rest1.tail.takeWhile isAsciiDigit else []
    let rest2 :=
      if rest1.head? = some '.' then rest1.tail.drop fracDigs.length else rest1
    if intDigs.isEmpty ∧ fracDigs.isEmpty then JSNum.nan
    else
      let mant : ℚ := (digitsVal (intDigs ++ fracDigs) : ℚ) / (10 : ℚ) ^ fracDigs.length
      JSNum.fin (sgn * mant * (10 : ℚ) ^ floatExpVal rest2)

/-- JS `parseFloat` on a string. -/
def parseFloatStr (s : String) : JSNum := parseFloatChars s.data

/-- Value of a digit character in radix `b` (`ToNumber` integer literals). -/
def digitValIn (b : ℕ) (c : Char) : Option ℕ :=
  let v : Option ℕ :=
    if isAsciiDigit c then some (digVal c)
    else if decide ('a' ≤ c) && decide (c ≤ 'f') then some (c.toNat - 'a'.toNat + 10)
    else if decide ('A' ≤ c) && decide (c ≤ 'F') then some (c.toNat - 'A'.toNat + 10)
    else none
  match v with
  | some n => if n < b then some n else none
  | none => none

/-- Value of a non-empty all-valid digit string in radix `b`. -/
def radixVal (b : ℕ) (l : List Char) : Option ℕ :=
  match l with
  | [] => none
  | _ =>
    l.foldl (fun acc c =>
      match acc, digitValIn b c with
      | some a, some d => some (b * a + d)
      | _, _ => none) (some 0)

/-- The full-string decimal branch of `ToNumber(string)`: optional sign,
then `Infinity` or a decimal literal, consuming the entire input. -/
def decFullVal (cs0 : List Char) : JSNum :=
  let sgn : ℚ := if cs0.head? = some '-' then -1 else 1
  let cs := if decide (cs0.head? = some '-') || decide (cs0.head? = some '+') then cs0.tail else cs0
  if cs = "Infinity".data then
    if sgn = -1 then JSNum.ninf else JSNum.inf
  else
    let intDigs := cs.takeWhile isAsciiDigit
    let rest1 := cs.drop intDigs.length
    let fracDigs :=
      if rest1.head? = some '.' then rest1.tail.takeWhile isAsciiDigit else []
    let rest2 :=
      if rest1.head? = some '.' then rest1.tail.drop fracDigs.length else rest1
    if intDigs.isEmpty ∧ fracDigs.isEmpty then JSNum.nan
    else if rest2.isEmpty then
      JSNum.fin (sgn * ((digitsVal (intDigs ++ fracDigs) : ℚ) / (10 : ℚ) ^ fracDigs.length))
    else if decide (rest2.head? = some 'e') || decide (rest2.head? = some 'E') then
      let r := rest2.tail
      let sgnE : ℤ := if r.head? = some '-' then -1 else 1
      let r2 := if decide (r.head? = some '-') || decide (r.head? = some '+') then r.tail else r
      let ds := r2.takeWhile isAsciiDigit
      if ds.isEmpty ∨ ¬ r2.drop ds.length = [] then JSNum.nan
      else
        let mant : ℚ := (digitsVal (intDigs ++ fracDigs) : ℚ) / (10 : ℚ) ^ fracDigs.length
        JSNum.fin (sgn * mant * (10 : ℚ) ^ (sgnE * (digitsVal ds : ℤ)))
    else JSNum.nan

/-- `ToNumber(string)`: trim whitespace; empty gives `0`; an unsigned
`0x`/`0o`/`0b` integer literal, or a signed decimal literal / `Infinity`
matching the whole string; anything else gives NaN. -/
def strToNumber (s : String) : JSNum :=
  let cs := ((s.data.dropWhile isJsSpace).reverse.dropWhile isJsSpace).reverse
  let radixCase (b : ℕ) : JSNum :=
    match radixVal b (cs.drop 2) with
    | some n => JSNum.fin n
    | none => JSNum.nan
  if cs.isEmpty then JSNum.fin 0
  else if decide (cs.head? = some '0') &&
      (decide (cs.tail.head? = some 'x') || decide (cs.tail.head? = some 'X')) then
    radixCase 16
  else if decide (cs.head? = some '0') &&
      (decide (cs.tail.head? = some 'o') || decide (cs.tail.head? = some 'O')) then
    radixCase 8
  else if decide (cs.head? = some '0') &&
      (decide (cs.tail.head? = some 'b') || decide (cs.tail.head? = some 'B')) then
    radixCase 2
  else decFullVal cs

/-- Smallest `e` with `d ∣ 10 ^ e`, when `d` is of the form `2 ^ a * 5 ^ b`
(the denominator of every value an IEEE double can take). -/
def decExp (d : ℕ) : Option ℕ := (List.range (d + 1)).find? (fun e => 10 ^ e % d = 0)

/-- Left-pad a digit string with zeros to length `e`. -/
def natPad (e : ℕ) (s : List Char) : List Char := List.replicate (e - s.length) '0' ++ s

/-- JS `ToString` of a finite number, rendered as a plain exact decimal.
(JS prints very large or very small magnitudes in exponent notation, but
both renderings contain none of the characters the sales regex strips and
both parse back to the same value, so the plain form is observationally
equivalent for this pipeline.  Rationals whose denominator is not of the
form `2 ^ a * 5 ^ b` are not values of any IEEE double; they get a marker
rendering on an unreachable branch.) -/
def qToString (q : ℚ) : String :=
  match decExp q.den with
  | some e =>
    let n : ℕ := q.num.natAbs * (10 ^ e / q.den)
    let digs := natPad (e + 1) (Nat.repr n).data
    let core :=
      if e = 0 then digs
      else digs.take (digs.length - e) ++ '.' :: digs.drop (digs.length - e)
    String.mk ((if q.num < 0 then ['-'] else []) ++ core)
  | none => String.mk ('#' :: (Nat.repr q.num.natAbs).data)

/-- JS `ToString` of a number. -/
def jsNumToString : JSNum → String
  | .nan => "NaN"
  | .inf => "Infinity"
  | .ninf => "-Infinity"
  | .fin q => qToString q

/-- JS `x.toString()` on a cell value as done by the sales coercion. -/
def cellToString : Cell → String
  | .str s => s
  | .num n => jsNumToString n
  | .null => "null"
  | Cell.undef => "undefined"

/-- A raw spreadsheet row: an association list from column name to cell
value (JS object keys are unique; a missing key reads as `undefined`). -/
def RawRow := List (String × Cell)

/-- `d[k]` on a raw row. -/
def rowGet (d : RawRow) (k : String) : Cell :=
  match d.find? (fun p => decide (p.1 = k)) with
  | some p => p.2
  | none => Cell.undef

/-- `keys.map(k => d[k]).find(v => v !== undefined && v !== null)` of the
normalizer's `get` helper. -/
def findCell (d : RawRow) : List String → Option Cell
  | [] => none
  | k :: ks =>
    let v := rowGet d k
    if v ≠ Cell.undef ∧ v ≠ Cell.null then some v else findCell d ks

/-- The normalizer's `get` helper:
`keys.map(k => d[k]).find(v => v !== undefined && v !== null) || ''`. -/
def getC (d : RawRow) (keys : List String) : Cell :=
  match findCell d keys with
  | some v => if cellTruthy v then v else .str ""
  | none => .str ""

/-- Character class of the sales regex literal `/[$,\\s]/g`: inside a regex
literal `\\` is an escaped backslash, so the class holds the four characters
`$`, `,`, `\` and the letter `s` (not the whitespace class). -/
def inMoneyStrip (c : Char) : Bool :=
  decide (c = '$') || decide (c = ',') || decide (c = '\\') || decide (c = 's')

/-- `x.replace(/[$,\\s]/g, '')`. -/
def stripMoney (s : String) : String := String.mk (s.data.filter (fun c => !inMoneyStrip c))

/-- `parseFloat(x.toString().replace(/[$,\\s]/g, '')) || 0` — the sales
coercion applied to the resolved sales cell. -/
def salesOfCell (v : Cell) : JSNum :=
  jsOrNum (parseFloatStr (stripMoney (cellToString v))) (.fin 0)

/-- `Number(x)` on a resolved cell (the month-sort coercion). -/
def toNumber : Cell → JSNum
  | .num n => n
  | .str s => strToNumber s
  | .null => .fin 0
  | Cell.undef => .nan

/-- A normalized transaction record, with the source's field names. -/
structure Tx where
  sales : JSNum
  Monthsort : JSNum
  coffee_name : Cell
  transaction_id : Cell
  Time_of_Day : Cell
deriving DecidableEq, Repr

/-- Ordered alias list for the sales amount column. -/
def salesAliases : List String := ["Sales_amount", "sales_amount", "Sales Amount"]

/-- Ordered alias list for the month-sort column. -/
def monthAliases : List String := ["Monthsort", "Month Sort", "monthsort", "Month"]

/-- Ordered alias list for the coffee name column. -/
def coffeeAliases : List String := ["coffee_name", "Coffee Name", "coffee"]

/-- Ordered alias list for the transaction id column. -/
def idAliases : List String := ["transaction_id", "Transaction ID", "transactio_id", "id"]

/-- Ordered alias list for the time-of-day column. -/
def timeAliases : List String := ["Time_of_Day", "Time of Day", "time_of_day", "Time"]

/-- The row normalizer: the body of `raw.map((d) => { ... })` building
`{ sales, Monthsort, coffee_name, transaction_id, Time_of_Day }`. -/
def normalizeRow (d : RawRow) : Tx :=
  { sales := salesOfCell (getC d salesAliases)
    Monthsort := toNumber (getC d monthAliases)
    coffee_name := getC d coffeeAliases
    transaction_id := getC d idAliases
    Time_of_Day := getC d timeAliases }

/-- `raw.map(normalizeRow)` — the `data` memo. -/
def normalizeData (raw : List RawRow) : List Tx := raw.map normalizeRow

/-- A normalized record viewed again as a raw row (for re-normalization):
the JS object `{ sales, Monthsort, coffee_name, transaction_id,
Time_of_Day }` itself. -/
def txToRow (t : Tx) : RawRow :=
  [("sales", Cell.num t.sales), ("Monthsort", Cell.num t.Monthsort),
   ("coffee_name", t.coffee_name), ("transaction_id", t.transaction_id),
   ("Time_of_Day", t.Time_of_Day)]

/-- The filter predicate: `(coffee === 'All' || d.coffee_name === coffee) &&
(d.Monthsort >= minMonth && d.Monthsort <= maxMonth)`. -/
def filterPred (coffee : String) (lo hi : ℤ) (d : Tx) : Bool :=
  (decide (coffee = "All") || decide (d.coffee_name = Cell.str coffee)) &&
    (jsGe d.Monthsort (.fin lo) && jsGe (.fin hi) d.Monthsort)

/-- The `filtered` memo. -/
def filtered (txs : List Tx) (coffee : String) (lo hi : ℤ) : List Tx :=
  txs.filter (filterPred coffee lo hi)

/-- `filtered.reduce((s, d) => s + d.sales, 0)` — the `totalSales` KPI. -/
def totalSales (txs : List Tx) : JSNum :=
  txs.foldl (fun s d => jsAdd s d.sales) (.fin 0)

/-- `new Set(filtered.map(d => d.transaction_id)).size` — distinct ids
(SameValueZero, which structural equality of the cell model matches). -/
def totalTransactions (txs : List Tx) : ℕ :=
  ((txs.map (fun d => d.transaction_id)).dedup).length

/-- `totalTransactions ? totalSales / totalTransactions : 0`. -/
def avgValue (txs : List Tx) : JSNum :=
  if totalTransactions txs ≠ 0 then jsDivNat (totalSales txs) (totalTransactions txs)
  else .fin 0

/-- The fixed time-of-day slots, in display order. -/
def timeSlots : List String := ["Morning", "Afternoon", "Night"]

/-- `filtered.filter(d => d.Time_of_Day === slot)`. -/
def slotRows (txs : List Tx) (slot : String) : List Tx :=
  txs.filter (fun d => decide (d.Time_of_Day = Cell.str slot))

/-- The raw per-slot sales sum (same reduce as `totalSales`). -/
def slotSum (txs : List Tx) (slot : String) : JSNum := totalSales (slotRows txs slot)

/-- The `salesByTime` memo: per slot, the rounded sales sum
`Number(slotSales.toFixed(2))`. -/
def salesByTime (txs : List Tx) : List (String × JSNum) :=
  timeSlots.map (fun slot => (slot, numToFixed2 (slotSum txs slot)))

/-- Insert into a list sorted by descending second component, placing the
new element after any earlier element whose key is `>` (the stable order
produced by `sort((a, b) => b.val - a.val)` for a consistent comparator;
comparisons involving NaN report false and leave order unchanged). -/
def insertDesc {α : Type} (x : α × JSNum) : List (α × JSNum) → List (α × JSNum)
  | [] => [x]
  | y :: ys => if jsGt y.2 x.2 then y :: insertDesc x ys else x :: y :: ys

/-- Stable descending sort by the second component, modelling the stable
`Array.prototype.sort` (ES2019+) with comparator `(a, b) => b.val - a.val`. -/
def sortDesc {α : Type} : List (α × JSNum) → List (α × JSNum)
  | [] => []
  | x :: xs => insertDesc x (sortDesc xs)

/-- The `peakTime` memo: `[...salesByTime].sort((a,b) => b.Sales - a.Sales)`
then `sorted[0]?.Time_of_Day || '-'`. -/
def peakTime (txs : List Tx) : String :=
  match sortDesc (salesByTime txs) with
  | [] => "-"
  | p :: _ => if p.1 = "" then "-" else p.1

/-- `map.get(k)` on the grouping `Map`, as an association list preserving
insertion order. -/
def mapGet (m : List (Cell × JSNum)) (k : Cell) : Option JSNum :=
  (m.find? (fun p => decide (p.1 = k))).map (fun p => p.2)

/-- `map.set(k, v)`: update in place if present, else append. -/
def mapSet (m : List (Cell × JSNum)) (k : Cell) (v : JSNum) : List (Cell × JSNum) :=
  if m.any (fun p => decide (p.1 = k)) then
    m.map (fun p => if p.1 = k then (k, v) else p)
  else m ++ [(k, v)]

/-- The grouping loop of `top3Overall`:
`map.set(r.coffee_name, (map.get(r.coffee_name) || 0) + r.sales)` over the
subset, in encounter order. -/
def groupTotals (txs : List Tx) : List (Cell × JSNum) :=
  txs.foldl (fun m t =>
    let cur : JSNum := match mapGet m t.coffee_name with
      | some v => if numTruthy v then v else .fin 0
      | none => .fin 0
    mapSet m t.coffee_name (jsAdd cur t.sales)) []

/-- The `top3Overall` memo: group totals in encounter order, each mapped to
`Number(total.toFixed(2))`, sorted descending by the (rounded) total with
the stable comparator, first 3 taken. -/
def top3Overall (txs : List Tx) : List (Cell × JSNum) :=
  (sortDesc ((groupTotals txs).map (fun p => (p.1, numToFixed2 p.2)))).take 3

/-- The `top3BySlot` memo: the same ranking restricted to one slot's rows. -/
def top3BySlot (txs : List Tx) (slot : String) : List (Cell × JSNum) :=
  top3Overall (slotRows txs slot)

/-- Ascending insertion by JS default sort order (string comparison of the
rendered values), stable. -/
def insertAscStr (x : Cell) : List Cell → List Cell
  | [] => [x]
  | y :: ys =>
    if decide (cellToString x < cellToString y) then x :: y :: ys
    else y :: insertAscStr x ys

/-- `Array.from(set).sort()` — JS default sort, ascending by string form. -/
def sortAscStr : List Cell → List Cell
  | [] => []
  | x :: xs => insertAscStr x (sortAscStr xs)

/-- The `coffeeOptions` memo:
`['All', ...Array.from(new Set(data.map(d => d.coffee_name).filter(Boolean))).sort()]`. -/
def coffeeOptions (data : List Tx) : List Cell :=
  Cell.str "All" :: sortAscStr (((data.map (fun d => d.coffee_name)).filter cellTruthy).dedup)

/-- The per-slot metrics row of the time-of-day table: sales sum, distinct
transaction count, and the guarded average `t ? s / t : 0`. -/
def slotMetrics (txs : List Tx) (slot : String) : JSNum × ℕ × JSNum :=
  let rows := slotRows txs slot
  let s := totalSales rows
  let t := totalTransactions rows
  (s, t, if t ≠ 0 then jsDivNat s t else .fin 0)

/-- Alias resolution as the claim words it (C5): the value of the first
alias whose cell is neither null nor undefined, the empty string when no
alias matches. -/
def getSpecC (d : RawRow) (keys : List String) : Cell :=
  match findCell d keys with
  | some v => v
  | none => .str ""

/-- Character set the spec says the monetary coercion strips: currency
symbol, thousands separator, whitespace. -/
def stripSpecChar (c : Char) : Bool := decide (c = '$') || decide (c = ',') || isJsSpace c

/-- Strip-then-parse as the spec words it. -/
def stripSpec (s : String) : String := String.mk (s.data.filter (fun c => !stripSpecChar c))

/-- Monetary coercion as the claim words it (C3): strip currency symbols,
thousands separators and whitespace, then parse as a decimal; unparsable
maps to 0. -/
def moneySpec (s : String) : JSNum := jsOrNum (parseFloatStr (stripSpec s)) (.fin 0)

/-- `top3Overall` as the claim words it (C7): group, stable-sort descending
by the raw group total, take the first 3, then round each reported total. -/
def top3OverallSpec (txs : List Tx) : List (Cell × JSNum) :=
  ((sortDesc (groupTotals txs)).take 3).map (fun p => (p.1, numToFixed2 p.2))

/-- First maximum of a keyed list: an element is replaced only by a
strictly greater key, so the first maximal element wins. -/
def firstMax {α : Type} : List (α × JSNum) → Option (α × JSNum)
  | [] => none
  | x :: xs =>
    match firstMax xs with
    | some m => some (if jsGt m.2 x.2 then m else x)
    | none => some x

/-- `peakTimeOfDay` as the claim words it (C8): the first slot attaining
the maximum raw summed sales, `-` when the slot list is empty. -/
def peakTimeSpecRaw (txs : List Tx) : String :=
  match firstMax (timeSlots.map (fun slot => (slot, slotSum txs slot))) with
  | some m => m.1
  | none => "-"

/-- A raw row carrying a sales amount of "5" and nothing else. -/
def rowC1 : RawRow := [("Sales_amount", Cell.str "5")]

/-- A raw row with a negative monetary cell. -/
def rowNeg : RawRow := [("Sales_amount", Cell.str "-5")]

/-- A raw row with an unparsable monetary cell. -/
def rowAbc : RawRow := [("Sales_amount", Cell.str "abc")]

/-- A raw row whose month cell holds the non-integer "3.5". -/
def rowMonPt5 : RawRow := [("Month", Cell.str "3.5")]

/-- A raw row whose month cell is unparsable. -/
def rowJan : RawRow := [("Month", Cell.str "January")]

/-- A raw row whose first coffee-name alias holds the present value `0`
while a later alias holds "Latte". -/
def rowZeroName : RawRow := [("coffee_name", Cell.num (.fin 0)), ("Coffee Name", Cell.str "Latte")]

/-- A raw row with a half-cent sale in the Morning slot. -/
def rowHalfCent : RawRow :=
  [("Sales_amount", Cell.str "0.005"), ("Monthsort", Cell.str "1"),
   ("Time_of_Day", Cell.str "Morning")]

/-- Product "B", first in encounter order, raw total 1.001, Morning. -/
def rowB : RawRow :=
  [("coffee_name", Cell.str "B"), ("Sales_amount", Cell.str "1.001"),
   ("Monthsort", Cell.str "1"), ("Time_of_Day", Cell.str "Morning")]

/-- Product "A", second in encounter order, raw total 1.004, Night. -/
def rowA : RawRow :=
  [("coffee_name", Cell.str "A"), ("Sales_amount", Cell.str "1.004"),
   ("Monthsort", Cell.str "1"), ("Time_of_Day", Cell.str "Night")]

/-- A raw row whose monetary cell parses to `Infinity`. -/
def rowInf : RawRow :=
  [("Sales_amount", Cell.str "Infinity"), ("transaction_id", Cell.str "a"),
   ("Monthsort", Cell.str "1")]

/-- A raw row whose monetary cell parses to `-Infinity`. -/
def rowNInf : RawRow :=
  [("Sales_amount", Cell.str "-Infinity"), ("transaction_id", Cell.str "b"),
   ("Monthsort", Cell.str "1")]

/-- A raw row with a large sale and no coffee-name cell at all. -/
def rowNoName : RawRow :=
  [("Sales_amount", Cell.str "100"), ("Monthsort", Cell.str "1"),
   ("Time_of_Day", Cell.str "Morning"), ("transaction_id", Cell.str "x")]

/-- A raw "Latte" row with a small sale. -/
def rowLatte : RawRow :=
  [("coffee_name", Cell.str "Latte"), ("Sales_amount", Cell.str "5"),
   ("Monthsort", Cell.str "1"), ("Time_of_Day", Cell.str "Morning"),
   ("transaction_id", Cell.str "y")]

def txC1 : Tx := ⟨.fin 5, .fin 0, .str "", .str "", .str ""⟩

def txNeg : Tx := ⟨.fin (-5), .fin 0, .str "", .str "", .str ""⟩

def txAbc : Tx := ⟨.fin 0, .fin 0, .str "", .str "", .str ""⟩

def txMonPt5 : Tx := ⟨.fin 0, .fin (7 / 2), .str "", .str "", .str ""⟩

def txJan : Tx := ⟨.fin 0, .nan, .str "", .str "", .str ""⟩

def txZeroName : Tx := ⟨.fin 0, .fin 0, .str "", .str "", .str ""⟩

def txHalfCent : Tx := ⟨.fin (1 / 200), .fin 1, .str "", .str "", .str "Morning"⟩

def txB : Tx := ⟨.fin (1001 / 1000), .fin 1, .str "B", .str "", .str "Morning"⟩

def txA : Tx := ⟨.fin (251 / 250), .fin 1, .str "A", .str "", .str "Night"⟩

def txInf : Tx := ⟨.inf, .fin 1, .str "", .str "a", .str ""⟩

def txNInf : Tx := ⟨.ninf, .fin 1, .str "", .str "b", .str ""⟩

def txNoName : Tx := ⟨.fin 100, .fin 1, .str "", .str "x", .str "Morning"⟩

def txLatte : Tx := ⟨.fin 5, .fin 1, .str "Latte", .str "y", .str "Morning"⟩

/-- The rational value of a finite sales field (0 on the non-finite
constructors; used only under finiteness hypotheses). -/
def salesQ (t : Tx) : ℚ :=
  match t.sales with
  | .fin q => q
  | _ => 0

/-- Exact rational total of a transaction list's sales. -/
def sumQ (txs : List Tx) : ℚ := (txs.map salesQ).sum

/-- Every row's sales is a finite number. -/
def allFinSales (txs : List Tx) : Prop := ∀ t ∈ txs, ∃ q : ℚ, t.sales = JSNum.fin q

/-- One grouping step of `top3Overall`. -/
def groupStep (m : List (Cell × JSNum)) (t : Tx) : List (Cell × JSNum) :=
  let cur : JSNum := match mapGet m t.coffee_name with
    | some v => if numTruthy v then v else .fin 0
    | none => .fin 0
  mapSet m t.coffee_name (jsAdd cur t.sales)

/-- The quantity the claim compares with `totalSales`: the JS sum of the
three `salesByTimeSlot` entries. -/
def slotEntriesSum (txs : List Tx) : JSNum :=
  (salesByTime txs).foldl (fun s p => jsAdd s p.2) (.fin 0)

theorem digVal_0 : digVal '0' = 0 := by decide

theorem digVal_1 : digVal '1' = 1 := by decide

theorem digVal_2 : digVal '2' = 2 := by decide

theorem digVal_3 : digVal '3' = 3 := by decide

theorem digVal_4 : digVal '4' = 4 := by decide

theorem digVal_5 : digVal '5' = 5 := by decide

theorem parseFloat_5 : parseFloatStr "5" = .fin 5 := by
  simp +decide only [parseFloatStr, parseFloatChars, floatExpVal, digitsVal,
    isJsSpace, isAsciiDigit,
    List.dropWhile, List.takeWhile, List.take, List.drop, List.foldl, List.append,
    List.isEmpty, List.length, List.head?, List.tail, digVal_5]
  norm_num

theorem parseFloat_neg5 : parseFloatStr "-5" = .fin (-5) := by
  simp +decide only [parseFloatStr, parseFloatChars, floatExpVal, digitsVal,
    isJsSpace, isAsciiDigit,
    List.dropWhile, List.takeWhile, List.take, List.drop, List.foldl, List.append,
    List.isEmpty, List.length, List.head?, List.tail, digVal_5]
  norm_num

theorem parseFloat_1234_50 : parseFloatStr "1234.50" = .fin (2469 / 2) := by
  simp +decide only [parseFloatStr, parseFloatChars, floatExpVal, digitsVal,
    isJsSpace, isAsciiDigit,
    List.dropWhile, List.takeWhile, List.take, List.drop, List.foldl, List.append,
    List.isEmpty, List.length, List.head?, List.tail,
    digVal_0, digVal_1, digVal_2, digVal_3, digVal_4, digVal_5]
  norm_num

theorem parseFloat_space_1234_50 : parseFloatStr "1 234.50" = .fin 1 := by
  simp +decide only [parseFloatStr, parseFloatChars, floatExpVal, digitsVal,
    isJsSpace, isAsciiDigit,
    List.dropWhile, List.takeWhile, List.take, List.drop, List.foldl, List.append,
    List.isEmpty, List.length, List.head?, List.tail, digVal_1]
  norm_num

theorem parseFloat_abc : parseFloatStr "abc" = .nan := by
  simp +decide only [parseFloatStr, parseFloatChars, floatExpVal, digitsVal,
    isJsSpace, isAsciiDigit,
    List.dropWhile, List.takeWhile, List.take, List.drop, List.foldl, List.append,
    List.isEmpty, List.length, List.head?, List.tail]

theorem parseFloat_empty : parseFloatStr "" = .nan := by
  simp +decide only [parseFloatStr, parseFloatChars, floatExpVal, digitsVal,
    isJsSpace, isAsciiDigit,
    List.dropWhile, List.takeWhile, List.take, List.drop, List.foldl, List.append,
    List.isEmpty, List.length, List.head?, List.tail]

theorem parseFloat_0_005 : parseFloatStr "0.005" = .fin (1 / 200) := by
  simp +decide only [parseFloatStr, parseFloatChars, floatExpVal, digitsVal,
    isJsSpace, isAsciiDigit,
    List.dropWhile, List.takeWhile, List.take, List.drop, List.foldl, List.append,
    List.isEmpty, List.length, List.head?, List.tail, digVal_0, digVal_5]
  norm_num

theorem parseFloat_1_001 : parseFloatStr "1.001" = .fin (1001 / 1000) := by
  simp +decide only [parseFloatStr, parseFloatChars, floatExpVal, digitsVal,
    isJsSpace, isAsciiDigit,
    List.dropWhile, List.takeWhile, List.take, List.drop, List.foldl, List.append,
    List.isEmpty, List.length, List.head?, List.tail, digVal_0, digVal_1]
  norm_num

theorem parseFloat_1_004 : parseFloatStr "1.004" = .fin (251 / 250) := by
  simp +decide only [parseFloatStr, parseFloatChars, floatExpVal, digitsVal,
    isJsSpace, isAsciiDigit,
    List.dropWhile, List.takeWhile, List.take, List.drop, List.foldl, List.append,
    List.isEmpty, List.length, List.head?, List.tail, digVal_0, digVal_1, digVal_4]
  norm_num

theorem parseFloat_100 : parseFloatStr "100" = .fin 100 := by
  simp +decide only [parseFloatStr, parseFloatChars, floatExpVal, digitsVal,
    isJsSpace, isAsciiDigit,
    List.dropWhile, List.takeWhile, List.take, List.drop, List.foldl, List.append,
    List.isEmpty, List.length, List.head?, List.tail, digVal_0, digVal_1]
  norm_num

theorem parseFloat_posInf : parseFloatStr "Infinity" = .inf := by
  simp +decide only [parseFloatStr, parseFloatChars,
    isJsSpace, List.dropWhile, List.take, List.head?, List.tail]

theorem parseFloat_negInf : parseFloatStr "-Infinity" = .ninf := by
  simp +decide only [parseFloatStr, parseFloatChars,
    isJsSpace, List.dropWhile, List.take, List.head?, List.tail]

theorem strToNumber_1 : strToNumber "1" = .fin 1 := by
  simp +decide only [strToNumber, decFullVal, radixVal, digitsVal,
    isJsSpace, isAsciiDigit,
    List.dropWhile, List.takeWhile, List.take, List.drop, List.foldl, List.append,
    List.isEmpty, List.length, List.head?, List.tail, List.reverse, digVal_1]
  norm_num

theorem strToNumber_3_5 : strToNumber "3.5" = .fin (7 / 2) := by
  simp +decide only [strToNumber, decFullVal, radixVal, digitsVal,
    isJsSpace, isAsciiDigit,
    List.dropWhile, List.takeWhile, List.take, List.drop, List.foldl, List.append,
    List.isEmpty, List.length, List.head?, List.tail, List.reverse, digVal_3, digVal_5]
  norm_num

theorem strToNumber_empty : strToNumber "" = .fin 0 := by
  simp +decide only [strToNumber, isJsSpace, List.dropWhile, List.reverse, List.isEmpty]

theorem strToNumber_January : strToNumber "January" = .nan := by
  simp +decide only [strToNumber, decFullVal, radixVal, digitsVal,
    isJsSpace, isAsciiDigit,
    List.dropWhile, List.takeWhile, List.take, List.drop, List.foldl, List.append,
    List.isEmpty, List.length, List.head?, List.tail, List.reverse]

theorem numTruthy_fin (q : ℚ) : numTruthy (.fin q) = decide (q ≠ 0) := rfl

theorem jsOrNum_truthy {a b : JSNum} (h : numTruthy a = true) : jsOrNum a b = a := by
  simp [jsOrNum, h]

theorem jsOrNum_falsy {a b : JSNum} (h : numTruthy a = false) : jsOrNum a b = b := by
  simp [jsOrNum, h]

theorem salesOfCell_s5 : salesOfCell (.str "5") = .fin 5 := by
  simp only [salesOfCell, cellToString, (by decide : stripMoney "5" = "5"), parseFloat_5]
  exact jsOrNum_truthy (by norm_num [numTruthy_fin])

theorem salesOfCell_neg5 : salesOfCell (.str "-5") = .fin (-5) := by
  simp only [salesOfCell, cellToString, (by decide : stripMoney "-5" = "-5"), parseFloat_neg5]
  exact jsOrNum_truthy (by norm_num [numTruthy_fin])

theorem salesOfCell_abc : salesOfCell (.str "abc") = .fin 0 := by
  simp only [salesOfCell, cellToString, (by decide : stripMoney "abc" = "abc"), parseFloat_abc]
  exact jsOrNum_falsy rfl

theorem salesOfCell_empty : salesOfCell (.str "") = .fin 0 := by
  simp only [salesOfCell, cellToString, (by decide : stripMoney "" = ""), parseFloat_empty]
  exact jsOrNum_falsy rfl

theorem salesOfCell_money : salesOfCell (.str "$1,234.50") = .fin (2469 / 2) := by
  simp only [salesOfCell, cellToString,
    (by decide : stripMoney "$1,234.50" = "1234.50"), parseFloat_1234_50]
  exact jsOrNum_truthy (by norm_num [numTruthy_fin])

theorem salesOfCell_spaceMoney : salesOfCell (.str "1 234.50") = .fin 1 := by
  simp only [salesOfCell, cellToString,
    (by decide : stripMoney "1 234.50" = "1 234.50"), parseFloat_space_1234_50]
  exact jsOrNum_truthy (by norm_num [numTruthy_fin])

theorem salesOfCell_halfCent : salesOfCell (.str "0.005") = .fin (1 / 200) := by
  simp only [salesOfCell, cellToString, (by decide : stripMoney "0.005" = "0.005"),
    parseFloat_0_005]
  exact jsOrNum_truthy (by norm_num [numTruthy_fin])

theorem salesOfCell_1_001 : salesOfCell (.str "1.001") = .fin (1001 / 1000) := by
  simp only [salesOfCell, cellToString, (by decide : stripMoney "1.001" = "1.001"),
    parseFloat_1_001]
  exact jsOrNum_truthy (by norm_num [numTruthy_fin])

theorem salesOfCell_1_004 : salesOfCell (.str "1.004") = .fin (251 / 250) := by
  simp only [salesOfCell, cellToString, (by decide : stripMoney "1.004" = "1.004"),
    parseFloat_1_004]
  exact jsOrNum_truthy (by norm_num [numTruthy_fin])

theorem salesOfCell_100 : salesOfCell (.str "100") = .fin 100 := by
  simp only [salesOfCell, cellToString, (by decide : stripMoney "100" = "100"), parseFloat_100]
  exact jsOrNum_truthy (by norm_num [numTruthy_fin])

theorem salesOfCell_posInf : salesOfCell (.str "Infinity") = .inf := by
  simp only [salesOfCell, cellToString,
    (by decide : stripMoney "Infinity" = "Infinity"), parseFloat_posInf]
  exact jsOrNum_truthy rfl

theorem salesOfCell_negInf : salesOfCell (.str "-Infinity") = .ninf := by
  simp only [salesOfCell, cellToString,
    (by decide : stripMoney "-Infinity" = "-Infinity"), parseFloat_negInf]
  exact jsOrNum_truthy rfl

theorem norm_rowC1 : normalizeRow rowC1 = txC1 := by
  rw [normalizeRow,
    (by decide : getC rowC1 salesAliases = .str "5"),
    (by decide : getC rowC1 monthAliases = .str ""),
    (by decide : getC rowC1 coffeeAliases = .str ""),
    (by decide : getC rowC1 idAliases = .str ""),
    (by decide : getC rowC1 timeAliases = .str ""),
    salesOfCell_s5]
  simp only [toNumber, strToNumber_empty]
  rfl

theorem norm_rowNeg : normalizeRow rowNeg = txNeg := by
  rw [normalizeRow,
    (by decide : getC rowNeg salesAliases = .str "-5"),
    (by decide : getC rowNeg monthAliases = .str ""),
    (by decide : getC rowNeg coffeeAliases = .str ""),
    (by decide : getC rowNeg idAliases = .str ""),
    (by decide : getC rowNeg timeAliases = .str ""),
    salesOfCell_neg5]
  simp only [toNumber, strToNumber_empty]
  rfl

theorem norm_rowAbc : normalizeRow rowAbc = txAbc := by
  rw [normalizeRow,
    (by decide : getC rowAbc salesAliases = .str "abc"),
    (by decide : getC rowAbc monthAliases = .str ""),
    (by decide : getC rowAbc coffeeAliases = .str ""),
    (by decide : getC rowAbc idAliases = .str ""),
    (by decide : getC rowAbc timeAliases = .str ""),
    salesOfCell_abc]
  simp only [toNumber, strToNumber_empty]
  rfl

theorem norm_rowMonPt5 : normalizeRow rowMonPt5 = txMonPt5 := by
  rw [normalizeRow,
    (by decide : getC rowMonPt5 salesAliases = .str ""),
    (by decide : getC rowMonPt5 monthAliases = .str "3.5"),
    (by decide : getC rowMonPt5 coffeeAliases = .str ""),
    (by decide : getC rowMonPt5 idAliases = .str ""),
    (by decide : getC rowMonPt5 timeAliases = .str ""),
    salesOfCell_empty]
  simp only [toNumber, strToNumber_3_5]
  rfl

theorem norm_rowJan : normalizeRow rowJan = txJan := by
  rw [normalizeRow,
    (by decide : getC rowJan salesAliases = .str ""),
    (by decide : getC rowJan monthAliases = .str "January"),
    (by decide : getC rowJan coffeeAliases = .str ""),
    (by decide : getC rowJan idAliases = .str ""),
    (by decide : getC rowJan timeAliases = .str ""),
    salesOfCell_empty]
  simp only [toNumber, strToNumber_January]
  rfl

theorem norm_rowZeroName : normalizeRow rowZeroName = txZeroName := by
  rw [normalizeRow,
    (by decide : getC rowZeroName salesAliases = .str ""),
    (by decide : getC rowZeroName monthAliases = .str ""),
    (by decide : getC rowZeroName coffeeAliases = .str ""),
    (by decide : getC rowZeroName idAliases = .str ""),
    (by decide : getC rowZeroName timeAliases = .str ""),
    salesOfCell_empty]
  simp only [toNumber, strToNumber_empty]
  rfl

theorem norm_rowHalfCent : normalizeRow rowHalfCent = txHalfCent := by
  rw [normalizeRow,
    (by decide : getC rowHalfCent salesAliases = .str "0.005"),
    (by decide : getC rowHalfCent monthAliases = .str "1"),
    (by decide : getC rowHalfCent coffeeAliases = .str ""),
    (by decide : getC rowHalfCent idAliases = .str ""),
    (by decide : getC rowHalfCent timeAliases = .str "Morning"),
    salesOfCell_halfCent]
  simp only [toNumber, strToNumber_1]
  rfl

theorem norm_rowB : normalizeRow rowB = txB := by
  rw [normalizeRow,
    (by decide : getC rowB salesAliases = .str "1.001"),
    (by decide : getC rowB monthAliases = .str "1"),
    (by decide : getC rowB coffeeAliases = .str "B"),
    (by decide : getC rowB idAliases = .str ""),
    (by decide : getC rowB timeAliases = .str "Morning"),
    salesOfCell_1_001]
  simp only [toNumber, strToNumber_1]
  rfl

theorem norm_rowA : normalizeRow rowA = txA := by
  rw [normalizeRow,
    (by decide : getC rowA salesAliases = .str "1.004"),
    (by decide : getC rowA monthAliases = .str "1"),
    (by decide : getC rowA coffeeAliases = .str "A"),
    (by decide : getC rowA idAliases = .str ""),
    (by decide : getC rowA timeAliases = .str "Night"),
    salesOfCell_1_004]
  simp only [toNumber, strToNumber_1]
  rfl

theorem norm_rowInf : normalizeRow rowInf = txInf := by
  rw [normalizeRow,
    (by decide : getC rowInf salesAliases = .str "Infinity"),
    (by decide : getC rowInf monthAliases = .str "1"),
    (by decide : getC rowInf coffeeAliases = .str ""),
    (by decide : getC rowInf idAliases = .str "a"),
    (by decide : getC rowInf timeAliases = .str ""),
    salesOfCell_posInf]
  simp only [toNumber, strToNumber_1]
  rfl

theorem norm_rowNInf : normalizeRow rowNInf = txNInf := by
  rw [normalizeRow,
    (by decide : getC rowNInf salesAliases = .str "-Infinity"),
    (by decide : getC rowNInf monthAliases = .str "1"),
    (by decide : getC rowNInf coffeeAliases = .str ""),
    (by decide : getC rowNInf idAliases = .str "b"),
    (by decide : getC rowNInf timeAliases = .str ""),
    salesOfCell_negInf]
  simp only [toNumber, strToNumber_1]
  rfl

theorem norm_rowNoName : normalizeRow rowNoName = txNoName := by
  rw [normalizeRow,
    (by decide : getC rowNoName salesAliases = .str "100"),
    (by decide : getC rowNoName monthAliases = .str "1"),
    (by decide : getC rowNoName coffeeAliases = .str ""),
    (by decide : getC rowNoName idAliases = .str "x"),
    (by decide : getC rowNoName timeAliases = .str "Morning"),
    salesOfCell_100]
  simp only [toNumber, strToNumber_1]
  rfl

theorem norm_rowLatte : normalizeRow rowLatte = txLatte := by
  rw [normalizeRow,
    (by decide : getC rowLatte salesAliases = .str "5"),
    (by decide : getC rowLatte monthAliases = .str "1"),
    (by decide : getC rowLatte coffeeAliases = .str "Latte"),
    (by decide : getC rowLatte idAliases = .str "y"),
    (by decide : getC rowLatte timeAliases = .str "Morning"),
    salesOfCell_s5]
  simp only [toNumber, strToNumber_1]
  rfl

theorem findCell_some {d : RawRow} {keys : List String} {v : Cell}
    (h : findCell d keys = some v) : v ≠ Cell.undef ∧ v ≠ Cell.null := by
  induction keys with
  | nil => simp [findCell] at h
  | cons k ks ih =>
    rw [findCell] at h
    split at h
    · rename_i hc
      cases h
      exact hc
    · exact ih h

theorem getC_ne_undef (d : RawRow) (keys : List String) : getC d keys ≠ Cell.undef := by
  rw [getC]
  cases h : findCell d keys with
  | none => simp
  | some v =>
    have hv := findCell_some h
    simp only []
    split
    · exact hv.1
    · simp

theorem getC_ne_null (d : RawRow) (keys : List String) : getC d keys ≠ Cell.null := by
  rw [getC]
  cases h : findCell d keys with
  | none => simp
  | some v =>
    have hv := findCell_some h
    simp only []
    split
    · exact hv.2
    · simp

theorem getC_truthy_or_empty (d : RawRow) (keys : List String) :
    cellTruthy (getC d keys) = true ∨ getC d keys = Cell.str "" := by
  rw [getC]
  cases h : findCell d keys with
  | none => right; rfl
  | some v =>
    by_cases ht : cellTruthy v = true
    · left
      simp [ht]
    · right
      simp [ht]

/-- C2 counterexample: the raw cell "-5" normalizes to sales `-5`, a
negative value, refuting "the `sales` field of the normalized record is a
finite, non-negative number". -/
theorem C2_counterexample :
    (normalizeRow rowNeg).sales = JSNum.fin (-5) ∧ (-5 : ℚ) < 0 := by
  constructor
  · rw [norm_rowNeg]
    rfl
  · norm_num

/-- C2 (amended): for every raw row, the normalized `sales` is never NaN —
an unparsable monetary cell coerces to 0 and normalization is total, never
an error — but the value can be negative (cell "-5") or infinite
(cell "Infinity"), so "finite non-negative" does not hold. -/
theorem C2_sales_never_nan (d : RawRow) :
    (normalizeRow d).sales ≠ JSNum.nan ∧
      (parseFloatStr (stripMoney (cellToString (getC d salesAliases))) = JSNum.nan →
        (normalizeRow d).sales = JSNum.fin 0) := by
  have key : ∀ v : Cell, salesOfCell v ≠ JSNum.nan ∧
      (parseFloatStr (stripMoney (cellToString v)) = JSNum.nan →
        salesOfCell v = JSNum.fin 0) := by
    intro v
    rw [salesOfCell, jsOrNum]
    cases hp : parseFloatStr (stripMoney (cellToString v)) with
    | nan => simp [numTruthy]
    | inf => simp [numTruthy]
    | ninf => simp [numTruthy]
    | fin q =>
      by_cases hq : q = 0
      · subst hq
        simp [numTruthy]
      · simp [numTruthy, hq]
  exact key (getC d salesAliases)

/-- C2 witness: the amended theorem applied to the concrete row with the
unparsable cell "abc". -/
theorem C2_witness : (normalizeRow rowAbc).sales = JSNum.fin 0 :=
  (C2_sales_never_nan rowAbc).2
    (by rw [(by decide : getC rowAbc salesAliases = Cell.str "abc"), cellToString,
      (by decide : stripMoney "abc" = "abc"), parseFloat_abc])

/-- C3: the monetary coercion does not strip whitespace: the regex literal
`/[$,\\s]/g` strips the characters `$`, `,`, `\` and the letter `s`, so the
cell "1 234.50" (space as thousands separator) coerces to 1 while the
spec's strip-currency/commas/whitespace description yields 1234.5.
The spec's three examples do hold on the code. -/
theorem C3_money_strip_bug :
    salesOfCell (.str "1 234.50") = JSNum.fin 1 ∧
      moneySpec "1 234.50" = JSNum.fin (2469 / 2) ∧
      salesOfCell (.str "1 234.50") ≠ moneySpec "1 234.50" ∧
      salesOfCell (.str "$1,234.50") = JSNum.fin (2469 / 2) ∧
      salesOfCell (.str "abc") = JSNum.fin 0 ∧
      salesOfCell (.str "") = JSNum.fin 0 := by
  have hm : moneySpec "1 234.50" = JSNum.fin (2469 / 2) := by
    rw [moneySpec, (by decide : stripSpec "1 234.50" = "1234.50"), parseFloat_1234_50]
    exact jsOrNum_truthy (by norm_num [numTruthy_fin])
  refine ⟨salesOfCell_spaceMoney, hm, ?_, salesOfCell_money, salesOfCell_abc,
    salesOfCell_empty⟩
  rw [salesOfCell_spaceMoney, hm]
  intro h
  have : (1 : ℚ) = 2469 / 2 := by injection h
  norm_num at this

/-- C4 counterexample: the parsable month cell "3.5" normalizes to the
non-integer month-sort 7/2, refuting "normalization coerces the month-sort
field to an integer (or the NaN sentinel)". -/
theorem C4_counterexample :
    (normalizeRow rowMonPt5).Monthsort = JSNum.fin (7 / 2) ∧
      ¬ ∃ z : ℤ, (7 / 2 : ℚ) = (z : ℚ) := by
  constructor
  · rw [norm_rowMonPt5]
    rfl
  · rintro ⟨z, hz⟩
    have h2 : (7 : ℚ) = (z : ℚ) * 2 := by
      field_simp at hz
      linarith
    have h3 : (7 : ℤ) = z * 2 := by exact_mod_cast h2
    omega

/-- C4 (amended): the month-sort coercion is `Number(...)` — a numeric, not
integral, coercion (cell "3.5" gives 7/2) — and an unparsable cell gives
the NaN sentinel, for which both range comparisons are false, so the row is
excluded from every month-range filter rather than reported as an error. -/
theorem C4_nan_month_excluded :
    (∀ (sel : String) (lo hi : ℤ) (txs : List Tx) (t : Tx),
      t.Monthsort = JSNum.nan → t ∉ filtered txs sel lo hi) ∧
      (normalizeRow rowJan).Monthsort = JSNum.nan := by
  constructor
  · intro sel lo hi txs t hnan hmem
    rw [filtered, List.mem_filter] at hmem
    have hpred := hmem.2
    rw [filterPred, hnan] at hpred
    simp [jsGe] at hpred
  · rw [norm_rowJan]
    rfl

/-- C4 witness: the amended theorem applied to the NaN-month record of the
row with month cell "January", inside the widest month filter. -/
theorem C4_witness : txJan ∉ filtered [txJan] "All" 1 12 :=
  C4_nan_month_excluded.1 "All" 1 12 [txJan] txJan rfl

/-- C5 counterexample: with the present value `0` under the first
coffee-name alias and "Latte" under the second, alias resolution returns
the empty string — not the value `0` of the first non-null non-undefined
alias that the claim says is returned (the later alias is indeed
shadowed). -/
theorem C5_counterexample :
    getC rowZeroName coffeeAliases = Cell.str "" ∧
      getSpecC rowZeroName coffeeAliases = Cell.num (JSNum.fin 0) ∧
      getC rowZeroName coffeeAliases ≠ getSpecC rowZeroName coffeeAliases := by
  decide

/-- C5 (amended): alias resolution returns the first non-null,
non-undefined value only when that value is truthy; a present falsy value
(such as 0 or an empty string) still shadows later aliases but is replaced
by the empty string, and when no alias matches the result is the empty
string (hence empty name/id/time-of-day fields). -/
theorem C5_alias_resolution (d : RawRow) (keys : List String) :
    (getC d keys = getSpecC d keys ∨ getC d keys = Cell.str "") ∧
      (findCell d keys = none → getC d keys = Cell.str "") ∧
      (∀ (k : String) (ks : List String) (v : Cell), rowGet d k = v →
        v ≠ Cell.undef → v ≠ Cell.null → findCell d (k :: ks) = some v) := by
  refine ⟨?_, ?_, ?_⟩
  · rw [getC, getSpecC]
    cases h : findCell d keys with
    | none => simp
    | some v =>
      by_cases ht : cellTruthy v = true
      · left
        simp [ht]
      · right
        simp [ht]
  · intro h
    rw [getC, h]
  · intro k ks v hv hu hn
    rw [findCell, hv]
    simp [hu, hn]

/-- C5 witness: the amended theorem applied at concrete rows — a row with
no coffee-name alias resolves the name to the empty string, and a present
first-alias value is the one `find` stops at. -/
theorem C5_witness :
    getC rowC1 coffeeAliases = Cell.str "" ∧
      findCell rowZeroName ["coffee_name", "Coffee Name", "coffee"] =
        some (Cell.num (JSNum.fin 0)) :=
  ⟨(C5_alias_resolution rowC1 coffeeAliases).2.1 (by decide),
   (C5_alias_resolution rowZeroName ["x"]).2.2 "coffee_name" ["Coffee Name", "coffee"]
     (Cell.num (JSNum.fin 0)) (by decide) (by decide) (by decide)⟩

theorem getC_txToRow_sales (t : Tx) : getC (txToRow t) salesAliases = .str "" := by
  simp [getC, findCell, rowGet, txToRow, List.find?, salesAliases]

theorem getC_txToRow_month (t : Tx) :
    getC (txToRow t) monthAliases =
      if cellTruthy (Cell.num t.Monthsort) then Cell.num t.Monthsort else .str "" := by
  simp [getC, findCell, rowGet, txToRow, List.find?, monthAliases]

theorem getC_txToRow_coffee (t : Tx) :
    getC (txToRow t) coffeeAliases =
      if cellTruthy t.coffee_name then t.coffee_name else .str "" := by
  cases h : t.coffee_name with
  | undef => simp [getC, findCell, rowGet, txToRow, List.find?, coffeeAliases, h, cellTruthy]
  | null => simp [getC, findCell, rowGet, txToRow, List.find?, coffeeAliases, h, cellTruthy]
  | str s => simp [getC, findCell, rowGet, txToRow, List.find?, coffeeAliases, h]
  | num n => simp [getC, findCell, rowGet, txToRow, List.find?, coffeeAliases, h]

theorem getC_txToRow_id (t : Tx) :
    getC (txToRow t) idAliases =
      if cellTruthy t.transaction_id then t.transaction_id else .str "" := by
  cases h : t.transaction_id with
  | undef => simp [getC, findCell, rowGet, txToRow, List.find?, idAliases, h, cellTruthy]
  | null => simp [getC, findCell, rowGet, txToRow, List.find?, idAliases, h, cellTruthy]
  | str s => simp [getC, findCell, rowGet, txToRow, List.find?, idAliases, h]
  | num n => simp [getC, findCell, rowGet, txToRow, List.find?, idAliases, h]

theorem getC_txToRow_time (t : Tx) :
    getC (txToRow t) timeAliases =
      if cellTruthy t.Time_of_Day then t.Time_of_Day else .str "" := by
  cases h : t.Time_of_Day with
  | undef => simp [getC, findCell, rowGet, txToRow, List.find?, timeAliases, h, cellTruthy]
  | null => simp [getC, findCell, rowGet, txToRow, List.find?, timeAliases, h, cellTruthy]
  | str s => simp [getC, findCell, rowGet, txToRow, List.find?, timeAliases, h]
  | num n => simp [getC, findCell, rowGet, txToRow, List.find?, timeAliases, h]

/-- C1 (amended): re-normalizing a normalized record is not a no-op: it
preserves `coffee_name`, `transaction_id` and `Time_of_Day`, preserves
`Monthsort` except that the NaN sentinel becomes 0, and always resets
`sales` to 0, because the normalized field name `sales` is not among the
sales-amount aliases. -/
theorem C1_renormalize (d : RawRow) :
    normalizeRow (txToRow (normalizeRow d)) =
      { normalizeRow d with
        sales := JSNum.fin 0
        Monthsort := if (normalizeRow d).Monthsort = JSNum.nan then JSNum.fin 0
          else (normalizeRow d).Monthsort } := by
  set t := normalizeRow d with ht
  rw [normalizeRow, getC_txToRow_sales, getC_txToRow_month, getC_txToRow_coffee,
    getC_txToRow_id, getC_txToRow_time, salesOfCell_empty]
  have hco : cellTruthy t.coffee_name = true ∨ t.coffee_name = Cell.str "" :=
    getC_truthy_or_empty d coffeeAliases
  have hid : cellTruthy t.transaction_id = true ∨ t.transaction_id = Cell.str "" :=
    getC_truthy_or_empty d idAliases
  have htm : cellTruthy t.Time_of_Day = true ∨ t.Time_of_Day = Cell.str "" :=
    getC_truthy_or_empty d timeAliases
  simp only [Tx.mk.injEq]
  refine ⟨trivial, ?_, ?_, ?_, ?_⟩
  · cases hm : t.Monthsort with
    | nan => simp [cellTruthy, numTruthy, toNumber, strToNumber_empty]
    | inf => simp [cellTruthy, numTruthy, toNumber]
    | ninf => simp [cellTruthy, numTruthy, toNumber]
    | fin q =>
      by_cases hq : q = 0
      · subst hq
        simp [cellTruthy, numTruthy, toNumber, strToNumber_empty]
      · simp [cellTruthy, numTruthy, hq, toNumber]
  · rcases hco with h | h
    · rw [if_pos h]
    · rw [h]
      simp [cellTruthy]
  · rcases hid with h | h
    · rw [if_pos h]
    · rw [h]
      simp [cellTruthy]
  · rcases htm with h | h
    · rw [if_pos h]
    · rw [h]
      simp [cellTruthy]

theorem renorm_txC1 : normalizeRow (txToRow txC1) = txAbc := by
  rw [normalizeRow, getC_txToRow_sales, getC_txToRow_month, getC_txToRow_coffee,
    getC_txToRow_id, getC_txToRow_time, salesOfCell_empty]
  simp [txC1, txAbc, cellTruthy, numTruthy, toNumber, strToNumber_empty]

/-- C1 counterexample: the single-row list holding sales cell "5"
normalizes to a record with sales 5, but normalizing the normalizer's own
output zeroes the sales field, so the normalizer is not idempotent. -/
theorem C1_counterexample :
    normalizeData ((normalizeData [rowC1]).map txToRow) ≠ normalizeData [rowC1] := by
  simp only [normalizeData, List.map]
  rw [norm_rowC1, renorm_txC1]
  intro h
  have h2 : txAbc = txC1 := (List.cons.inj h).1
  have h3 : JSNum.fin 0 = JSNum.fin 5 := congrArg Tx.sales h2
  have h4 : (0 : ℚ) = 5 := JSNum.fin.inj h3
  norm_num at h4

theorem foldl_jsAdd_eq_sum (txs : List Tx) (a : ℚ) (h : allFinSales txs) :
    txs.foldl (fun s d => jsAdd s d.sales) (.fin a) = .fin (a + sumQ txs) := by
  induction txs generalizing a with
  | nil => simp [sumQ]
  | cons t ts ih =>
    obtain ⟨q, hq⟩ := h t (List.mem_cons_self t ts)
    have hts : allFinSales ts := fun u hu => h u (List.mem_cons_of_mem t hu)
    rw [List.foldl_cons, hq]
    have : jsAdd (JSNum.fin a) (JSNum.fin q) = JSNum.fin (a + q) := rfl
    rw [this, ih (a + q) hts]
    have hsq : salesQ t = q := by
      rw [salesQ, hq]
    simp [sumQ, hsq]
    ring

theorem totalSales_eq_sumQ (txs : List Tx) (h : allFinSales txs) :
    totalSales txs = .fin (sumQ txs) := by
  have := foldl_jsAdd_eq_sum txs 0 h
  rwa [zero_add] at this

/-- C9 counterexample: two rows whose monetary cells parse to `Infinity`
and `-Infinity` (with distinct transaction ids, inside the widest filter)
give `totalSales = NaN` and hence `avgValue = NaN`, refuting "no NaN or
undefined value is ever produced". -/
theorem C9_counterexample :
    avgValue (filtered (normalizeData [rowInf, rowNInf]) "All" 1 12) = JSNum.nan := by
  simp only [normalizeData, List.map]
  rw [norm_rowInf, norm_rowNInf]
  decide

/-- C9 (amended): `avgValue` is `totalSales / totalTransactions` when the
count is nonzero and exactly 0 when the count is 0 — never a division by
zero, never undefined — and it is non-NaN whenever every row's sales is
finite (sales of ±Infinity, reachable from cells such as "Infinity", are
the only way to produce NaN).  The per-slot average of the time-of-day
table satisfies the same guarded definition on that slot's rows. -/
theorem C9_avg_guarded (txs : List Tx) :
    (totalTransactions txs = 0 → avgValue txs = JSNum.fin 0) ∧
      (totalTransactions txs ≠ 0 →
        avgValue txs = jsDivNat (totalSales txs) (totalTransactions txs)) ∧
      (allFinSales txs → avgValue txs ≠ JSNum.nan) ∧
      (∀ slot : String,
        (totalTransactions (slotRows txs slot) = 0 →
          (slotMetrics txs slot).2.2 = JSNum.fin 0) ∧
        (allFinSales txs → (slotMetrics txs slot).2.2 ≠ JSNum.nan)) := by
  have avgFin : ∀ (l : List Tx), allFinSales l →
      (if totalTransactions l ≠ 0 then jsDivNat (totalSales l) (totalTransactions l)
        else JSNum.fin 0) ≠ JSNum.nan := by
    intro l hl
    obtain ⟨S, hS⟩ : ∃ S, totalSales l = JSNum.fin S := ⟨sumQ l, totalSales_eq_sumQ l hl⟩
    split
    · rw [hS]
      intro hc
      exact JSNum.noConfusion hc
    · intro hc
      exact JSNum.noConfusion hc
  refine ⟨?_, ?_, ?_, ?_⟩
  · intro h0
    rw [avgValue, if_neg (by simp [h0])]
  · intro h0
    rw [avgValue, if_pos h0]
  · intro hfin
    rw [avgValue]
    exact avgFin txs hfin
  · intro slot
    have hsub : allFinSales txs → allFinSales (slotRows txs slot) := by
      intro hfin u hu
      exact hfin u (List.mem_filter.mp hu).1
    constructor
    · intro h0
      show (if totalTransactions (slotRows txs slot) ≠ 0 then _ else _) = _
      rw [if_neg (by simp [h0])]
    · intro hfin
      exact avgFin (slotRows txs slot) (hsub hfin)

/-- C9 witness: the amended theorem applied at an empty subset (count 0,
average exactly 0) and at a one-row finite subset (average not NaN). -/
theorem C9_witness :
    avgValue [] = JSNum.fin 0 ∧ avgValue [txLatte] ≠ JSNum.nan :=
  ⟨(C9_avg_guarded []).1 rfl,
   (C9_avg_guarded [txLatte]).2.2.1 (by
     intro t ht
     rw [List.mem_singleton] at ht
     exact ⟨5, by rw [ht]; rfl⟩)⟩

theorem keys_mapSet (m : List (Cell × JSNum)) (k : Cell) (v : JSNum) :
    (mapSet m k v).map (fun p => p.1) =
      if m.any (fun p => decide (p.1 = k)) then m.map (fun p => p.1)
      else m.map (fun p => p.1) ++ [k] := by
  rw [mapSet]
  split
  · rw [List.map_map]
    refine List.map_congr_left ?_
    intro p _
    by_cases h : p.1 = k
    · simp [h]
    · simp [h]
  · simp

theorem mem_keys_mapSet_self (m : List (Cell × JSNum)) (k : Cell) (v : JSNum) :
    k ∈ (mapSet m k v).map (fun p => p.1) := by
  rw [keys_mapSet]
  split
  · rename_i h
    rw [List.any_eq_true] at h
    obtain ⟨p, hp, he⟩ := h
    rw [decide_eq_true_eq] at he
    rw [← he]
    exact List.mem_map_of_mem _ hp
  · simp

theorem mem_keys_mapSet_of_mem (m : List (Cell × JSNum)) (k k' : Cell) (v : JSNum)
    (h : k' ∈ m.map (fun p => p.1)) : k' ∈ (mapSet m k v).map (fun p => p.1) := by
  rw [keys_mapSet]
  split
  · exact h
  · exact List.mem_append_left _ h

theorem groupTotals_eq_foldl (txs : List Tx) :
    groupTotals txs = txs.foldl groupStep [] := rfl

theorem mem_keys_foldl_of_mem (txs : List Tx) (m : List (Cell × JSNum)) (k : Cell)
    (h : k ∈ m.map (fun p => p.1)) :
    k ∈ (txs.foldl groupStep m).map (fun p => p.1) := by
  induction txs generalizing m with
  | nil => exact h
  | cons t ts ih =>
    rw [List.foldl_cons]
    exact ih _ (mem_keys_mapSet_of_mem _ _ _ _ h)

theorem mem_keys_foldl_groupStep (txs : List Tx) :
    ∀ (m : List (Cell × JSNum)) (t : Tx), t ∈ txs →
      t.coffee_name ∈ (txs.foldl groupStep m).map (fun p => p.1) := by
  induction txs with
  | nil =>
    intro m t h
    cases h
  | cons u us ih =>
    intro m t h
    rw [List.foldl_cons]
    rcases List.mem_cons.mp h with rfl | hmem
    · exact mem_keys_foldl_of_mem us _ _ (mem_keys_mapSet_self _ _ _)
    · exact ih _ t hmem

theorem mem_keys_groupTotals (txs : List Tx) (t : Tx) (h : t ∈ txs) :
    t.coffee_name ∈ (groupTotals txs).map (fun p => p.1) := by
  rw [groupTotals_eq_foldl]
  exact mem_keys_foldl_groupStep txs [] t h

theorem filtered_C10 :
    filtered (normalizeData [rowNoName, rowLatte]) "All" 1 12 = [txNoName, txLatte] := by
  simp only [normalizeData, List.map]
  rw [norm_rowNoName, norm_rowLatte]
  decide

theorem groupTotals_C10 :
    groupTotals [txNoName, txLatte] =
      [(Cell.str "", JSNum.fin 100), (Cell.str "Latte", JSNum.fin 5)] := by
  simp [groupTotals, List.foldl, mapGet, mapSet, txNoName, txLatte, jsAdd,
    eq_false (by decide : ¬ ("" = "Latte")), eq_false (by decide : ¬ ("Latte" = "")),
    numTruthy]

theorem numToFixed2_fin (q : ℚ) : numToFixed2 (.fin q) = .fin (qToFixed2 q) := rfl

theorem qToFixed2_eval (q r : ℚ) (z : ℤ) (h1 : (z : ℚ) ≤ q * 100 + 1 / 2)
    (h2 : q * 100 + 1 / 2 < z + 1) (h3 : ((z : ℚ)) / 100 = r) : qToFixed2 q = r := by
  rw [qToFixed2, show ⌊q * 100 + 1 / 2⌋ = z from Int.floor_eq_iff.mpr ⟨h1, h2⟩]
  exact h3

theorem round_100 : numToFixed2 (JSNum.fin 100) = JSNum.fin 100 := by
  rw [numToFixed2_fin, qToFixed2_eval 100 100 10000 (by norm_num) (by norm_num) (by norm_num)]

theorem round_5 : numToFixed2 (JSNum.fin 5) = JSNum.fin 5 := by
  rw [numToFixed2_fin, qToFixed2_eval 5 5 500 (by norm_num) (by norm_num) (by norm_num)]

theorem top3_C10 :
    top3Overall [txNoName, txLatte] =
      [(Cell.str "", JSNum.fin 100), (Cell.str "Latte", JSNum.fin 5)] := by
  rw [top3Overall, groupTotals_C10]
  simp only [List.map, round_100, round_5]
  rw [sortDesc, sortDesc, sortDesc, insertDesc, insertDesc,
    (by norm_num [jsGt] : jsGt (JSNum.fin 5) (JSNum.fin 100) = false)]
  simp [List.take]

/-- C10: rows whose coffee name resolved to the empty string are not
discarded by ranking — every row's name (the empty string included) is a
key of the grouping map — and in a concrete dataset the empty-name group
heads both `top3Overall` and the Morning per-slot top-3 while the empty
name is absent from the product-filter options. -/
theorem C10_empty_name_ranked :
    (∀ (txs : List Tx) (t : Tx), t ∈ txs →
      t.coffee_name ∈ (groupTotals txs).map (fun p => p.1)) ∧
      top3Overall (filtered (normalizeData [rowNoName, rowLatte]) "All" 1 12) =
        [(Cell.str "", JSNum.fin 100), (Cell.str "Latte", JSNum.fin 5)] ∧
      top3BySlot (filtered (normalizeData [rowNoName, rowLatte]) "All" 1 12) "Morning" =
        [(Cell.str "", JSNum.fin 100), (Cell.str "Latte", JSNum.fin 5)] ∧
      Cell.str "" ∉ coffeeOptions (normalizeData [rowNoName, rowLatte]) := by
  refine ⟨mem_keys_groupTotals, ?_, ?_, ?_⟩
  · rw [filtered_C10]
    exact top3_C10
  · rw [filtered_C10, top3BySlot,
      (by decide : slotRows [txNoName, txLatte] "Morning" = [txNoName, txLatte])]
    exact top3_C10
  · simp only [normalizeData, List.map]
    rw [norm_rowNoName, norm_rowLatte]
    decide

/-- C10 witness: the grouping-key part of the theorem applied to the
concrete dataset whose first row has an empty resolved name. -/
theorem C10_witness :
    Cell.str "" ∈ (groupTotals [txNoName, txLatte]).map (fun p => p.1) :=
  C10_empty_name_ranked.1 [txNoName, txLatte] txNoName (by decide)

theorem filterPred_month1 (t : Tx) (h : t.Monthsort = JSNum.fin 1) :
    filterPred "All" 1 12 t = true := by
  rw [filterPred, h]
  norm_num [jsGe]

theorem filtered_all_month1 (txs : List Tx) (h : ∀ t ∈ txs, t.Monthsort = JSNum.fin 1) :
    filtered txs "All" 1 12 = txs := by
  rw [filtered]
  rw [List.filter_eq_self]
  intro t ht
  exact filterPred_month1 t (h t ht)

theorem sumQ_cons (t : Tx) (l : List Tx) : sumQ (t :: l) = salesQ t + sumQ l := by
  simp [sumQ]

theorem sumQ_nil : sumQ [] = 0 := rfl

theorem slotRows_cons (t : Tx) (ts : List Tx) (slot : String) :
    slotRows (t :: ts) slot =
      if t.Time_of_Day = Cell.str slot then t :: slotRows ts slot else slotRows ts slot := by
  rw [slotRows, List.filter_cons]
  by_cases h : t.Time_of_Day = Cell.str slot
  · simp only [h, decide_True, if_true]
    rfl
  · simp only [h, decide_False, if_false]
    rfl

theorem sumQ_three_slots_le (txs : List Tx) (hpos : ∀ t ∈ txs, 0 ≤ salesQ t) :
    sumQ (slotRows txs "Morning") + sumQ (slotRows txs "Afternoon") +
      sumQ (slotRows txs "Night") ≤ sumQ txs := by
  induction txs with
  | nil => simp [slotRows, sumQ]
  | cons t ts ih =>
    have hpos' : ∀ u ∈ ts, 0 ≤ salesQ u := fun u hu => hpos u (List.mem_cons_of_mem _ hu)
    have ht : 0 ≤ salesQ t := hpos t (List.mem_cons_self _ _)
    have ihh := ih hpos'
    rw [slotRows_cons, slotRows_cons, slotRows_cons, sumQ_cons]
    by_cases hM : t.Time_of_Day = Cell.str "Morning"
    · have hA : ¬ t.Time_of_Day = Cell.str "Afternoon" := by
        rw [hM]
        decide
      have hN : ¬ t.Time_of_Day = Cell.str "Night" := by
        rw [hM]
        decide
      rw [if_pos hM, if_neg hA, if_neg hN, sumQ_cons]
      linarith [ihh]
    · by_cases hA : t.Time_of_Day = Cell.str "Afternoon"
      · have hN : ¬ t.Time_of_Day = Cell.str "Night" := by
          rw [hA]
          decide
        rw [if_neg hM, if_pos hA, if_neg hN, sumQ_cons]
        linarith [ihh]
      · by_cases hN : t.Time_of_Day = Cell.str "Night"
        · rw [if_neg hM, if_neg hA, if_pos hN, sumQ_cons]
          linarith [ihh]
        · rw [if_neg hM, if_neg hA, if_neg hN]
          linarith [ihh]

theorem qToFixed2_le (q : ℚ) : qToFixed2 q ≤ q + 1 / 200 := by
  rw [qToFixed2]
  have h1 : ((⌊q * 100 + 1 / 2⌋ : ℤ) : ℚ) ≤ q * 100 + 1 / 2 := Int.floor_le _
  have h2 : (q * 100 + 1 / 2) / 100 = q + 1 / 200 := by ring
  rw [← h2]
  exact div_le_div_of_nonneg_right h1 (by norm_num)

theorem round_0 : numToFixed2 (JSNum.fin 0) = JSNum.fin 0 := by
  rw [numToFixed2_fin, qToFixed2_eval 0 0 0 (by norm_num) (by norm_num) (by norm_num)]

theorem round_halfCent : numToFixed2 (JSNum.fin (1 / 200)) = JSNum.fin (1 / 100) := by
  rw [numToFixed2_fin,
    qToFixed2_eval (1 / 200) (1 / 100) 1 (by norm_num) (by norm_num) (by norm_num)]

theorem allFin_slotRows (txs : List Tx) (slot : String) (h : allFinSales txs) :
    allFinSales (slotRows txs slot) := by
  intro u hu
  rw [slotRows] at hu
  exact h u (List.mem_filter.mp hu).1

/-- C6 (amended): for every subset whose sales are all finite and
non-negative, the sum of the three `salesByTimeSlot` entries exceeds
`totalSales` by at most 3 × 0.005 (each slot entry is rounded half-up to 2
decimals, adding at most half a cent per slot) — the unrounded per-slot
sums themselves never exceed the total — and rows with an unrecognized
time-of-day label belong to no slot's rows while still being summed into
`totalSales`. -/
theorem C6_slot_sum_bound (txs : List Tx) (hfin : allFinSales txs)
    (hpos : ∀ t ∈ txs, 0 ≤ salesQ t) :
    ∃ S T : ℚ, slotEntriesSum txs = JSNum.fin S ∧ totalSales txs = JSNum.fin T ∧
      S ≤ T + 3 / 200 ∧
      ∀ t ∈ txs, t.Time_of_Day ∉ [Cell.str "Morning", Cell.str "Afternoon",
        Cell.str "Night"] → ∀ slot ∈ timeSlots, t ∉ slotRows txs slot := by
  have hMfin := allFin_slotRows txs "Morning" hfin
  have hAfin := allFin_slotRows txs "Afternoon" hfin
  have hNfin := allFin_slotRows txs "Night" hfin
  have hM := totalSales_eq_sumQ _ hMfin
  have hA := totalSales_eq_sumQ _ hAfin
  have hN := totalSales_eq_sumQ _ hNfin
  have hsbt : salesByTime txs =
      [("Morning", JSNum.fin (qToFixed2 (sumQ (slotRows txs "Morning")))),
       ("Afternoon", JSNum.fin (qToFixed2 (sumQ (slotRows txs "Afternoon")))),
       ("Night", JSNum.fin (qToFixed2 (sumQ (slotRows txs "Night"))))] := by
    rw [salesByTime, timeSlots]
    simp only [List.map]
    rw [slotSum, slotSum, slotSum, hM, hA, hN]
    rfl
  have hsum : slotEntriesSum txs =
      JSNum.fin (0 + qToFixed2 (sumQ (slotRows txs "Morning")) +
        qToFixed2 (sumQ (slotRows txs "Afternoon")) +
        qToFixed2 (sumQ (slotRows txs "Night"))) := by
    rw [slotEntriesSum, hsbt]
    rfl
  refine ⟨_, sumQ txs, hsum, totalSales_eq_sumQ txs hfin, ?_, ?_⟩
  · have b1 := qToFixed2_le (sumQ (slotRows txs "Morning"))
    have b2 := qToFixed2_le (sumQ (slotRows txs "Afternoon"))
    have b3 := qToFixed2_le (sumQ (slotRows txs "Night"))
    have hle := sumQ_three_slots_le txs hpos
    linarith
  · intro t ht hnot slot hslot hmem
    rw [slotRows, List.mem_filter, decide_eq_true_eq] at hmem
    rw [timeSlots, List.mem_cons, List.mem_cons, List.mem_singleton] at hslot
    rcases hslot with h | h | h
    · exact hnot (by rw [hmem.2, h]; simp)
    · exact hnot (by rw [hmem.2, h]; simp)
    · exact hnot (by rw [hmem.2, h]; simp)

/-- C6 witness: the amended theorem applied at a one-row Morning subset
with finite non-negative sales. -/
theorem C6_witness :
    ∃ S T : ℚ, slotEntriesSum [txLatte] = JSNum.fin S ∧
      totalSales [txLatte] = JSNum.fin T ∧ S ≤ T + 3 / 200 ∧
      ∀ t ∈ [txLatte], t.Time_of_Day ∉ [Cell.str "Morning", Cell.str "Afternoon",
        Cell.str "Night"] → ∀ slot ∈ timeSlots, t ∉ slotRows [txLatte] slot :=
  C6_slot_sum_bound [txLatte]
    (by
      intro t ht
      rw [List.mem_singleton] at ht
      exact ⟨5, by rw [ht]; rfl⟩)
    (by
      intro t ht
      rw [List.mem_singleton] at ht
      rw [ht]
      norm_num [salesQ, txLatte])

/-- C6 counterexample: a single Morning row with sales 0.005 (month 1,
inside the widest filter) has `salesByTimeSlot` entries summing to 0.01,
strictly more than its `totalSales` of 0.005, refuting the claimed
inequality. -/
theorem C6_counterexample :
    slotEntriesSum (filtered (normalizeData [rowHalfCent]) "All" 1 12) =
        JSNum.fin (1 / 100) ∧
      totalSales (filtered (normalizeData [rowHalfCent]) "All" 1 12) =
        JSNum.fin (1 / 200) ∧
      ¬ ((1 / 100 : ℚ) ≤ 1 / 200) := by
  have hfilter : filtered (normalizeData [rowHalfCent]) "All" 1 12 = [txHalfCent] := by
    simp only [normalizeData, List.map]
    rw [norm_rowHalfCent]
    refine filtered_all_month1 _ ?_
    intro t ht
    rw [List.mem_singleton] at ht
    rw [ht]
    rfl
  have hslotM : slotRows [txHalfCent] "Morning" = [txHalfCent] := by
    rw [slotRows_cons, if_pos (by decide)]
    rfl
  have hslotA : slotRows [txHalfCent] "Afternoon" = [] := by
    rw [slotRows_cons, if_neg (by decide)]
    rfl
  have hslotN : slotRows [txHalfCent] "Night" = [] := by
    rw [slotRows_cons, if_neg (by decide)]
    rfl
  have htot : totalSales [txHalfCent] = JSNum.fin (1 / 200) := by
    have h0 : totalSales [txHalfCent] = JSNum.fin (0 + 1 / 200) := rfl
    rw [h0]
    norm_num
  refine ⟨?_, by rw [hfilter]; exact htot, by norm_num⟩
  rw [hfilter, slotEntriesSum, salesByTime, timeSlots]
  simp only [List.map]
  rw [slotSum, slotSum, slotSum, hslotM, hslotA, hslotN, htot,
    (by rfl : totalSales ([] : List Tx) = JSNum.fin 0), round_halfCent, round_0]
  have : (List.foldl (fun s p => jsAdd s p.2) (JSNum.fin 0)
      [("Morning", JSNum.fin (1 / 100)), ("Afternoon", JSNum.fin 0),
       ("Night", JSNum.fin 0)]) = JSNum.fin (0 + 1 / 100 + 0 + 0) := rfl
  rw [this]
  norm_num

theorem head_insertDesc {α : Type} (x : α × JSNum) (l : List (α × JSNum)) :
    (insertDesc x l).head? = some (match l.head? with
      | some y => if jsGt y.2 x.2 then y else x
      | none => x) := by
  cases l with
  | nil => rfl
  | cons y ys =>
    rw [insertDesc]
    by_cases h : jsGt y.2 x.2 = true
    · rw [if_pos h]
      simp [h]
    · rw [if_neg h]
      simp [Bool.not_eq_true] at h
      simp [h]

theorem head_sortDesc_eq_firstMax {α : Type} (l : List (α × JSNum)) :
    (sortDesc l).head? = firstMax l := by
  induction l with
  | nil => rfl
  | cons x xs ih =>
    rw [sortDesc, head_insertDesc, firstMax, ih]
    cases firstMax xs with
    | none => rfl
    | some m => rfl

theorem firstMax_mem {α : Type} {l : List (α × JSNum)} {m : α × JSNum}
    (h : firstMax l = some m) : m ∈ l := by
  induction l generalizing m with
  | nil => cases h
  | cons x xs ih =>
    rw [firstMax] at h
    cases hfx : firstMax xs with
    | none =>
      rw [hfx] at h
      cases h
      exact List.mem_cons_self _ _
    | some m' =>
      rw [hfx] at h
      cases h
      split
      · exact List.mem_cons_of_mem _ (ih hfx)
      · exact List.mem_cons_self _ _

theorem firstMax_eq_none {α : Type} {l : List (α × JSNum)} (h : firstMax l = none) :
    l = [] := by
  cases l with
  | nil => rfl
  | cons x xs =>
    rw [firstMax] at h
    cases hfx : firstMax xs with
    | none =>
      rw [hfx] at h
      cases h
    | some m' =>
      rw [hfx] at h
      cases h

theorem jsGe_refl_fin (q : ℚ) : jsGe (JSNum.fin q) (JSNum.fin q) = true := by
  simp [jsGe]

theorem jsGe_of_not_gt_fin {a b : ℚ} (h : jsGt (JSNum.fin a) (JSNum.fin b) = false) :
    jsGe (JSNum.fin b) (JSNum.fin a) = true := by
  rw [jsGt] at h
  rw [jsGe]
  simp at h ⊢
  linarith

theorem jsGe_of_gt_fin {a b : ℚ} (h : jsGt (JSNum.fin a) (JSNum.fin b) = true) :
    jsGe (JSNum.fin a) (JSNum.fin b) = true := by
  rw [jsGt] at h
  rw [jsGe]
  simp at h ⊢
  linarith

theorem jsGe_trans_fin {a b c : ℚ} (h1 : jsGe (JSNum.fin a) (JSNum.fin b) = true)
    (h2 : jsGe (JSNum.fin b) (JSNum.fin c) = true) :
    jsGe (JSNum.fin a) (JSNum.fin c) = true := by
  rw [jsGe] at h1 h2 ⊢
  simp at h1 h2 ⊢
  linarith

theorem firstMax_ge {α : Type} (l : List (α × JSNum)) :
    ∀ (m : α × JSNum), (∀ p ∈ l, ∃ q : ℚ, p.2 = JSNum.fin q) →
      firstMax l = some m → ∀ p ∈ l, jsGe m.2 p.2 = true := by
  induction l with
  | nil =>
    intro m _ _ p hp
    cases hp
  | cons x xs ih =>
    intro m hfin hm p hp
    obtain ⟨qx, hqx⟩ := hfin x (List.mem_cons_self _ _)
    have hfx' : ∀ p ∈ xs, ∃ q : ℚ, p.2 = JSNum.fin q :=
      fun u hu => hfin u (List.mem_cons_of_mem _ hu)
    rw [firstMax] at hm
    cases hfm : firstMax xs with
    | none =>
      rw [hfm] at hm
      cases hm
      have : xs = [] := firstMax_eq_none hfm
      subst this
      rcases List.mem_singleton.mp hp with rfl
      rw [hqx]
      exact jsGe_refl_fin qx
    | some mx =>
      rw [hfm] at hm
      cases hm
      obtain ⟨qm, hqm⟩ := hfx' mx (firstMax_mem hfm)
      have ihm := ih mx hfx' hfm
      rcases List.mem_cons.mp hp with rfl | hpxs
      · by_cases hgt : jsGt mx.2 p.2 = true
        · rw [if_pos hgt, hqm]
          rw [hqx] at hgt ⊢
          rw [hqm] at hgt
          exact jsGe_of_gt_fin hgt
        · rw [if_neg hgt, hqx]
          exact jsGe_refl_fin qx
      · obtain ⟨qp, hqp⟩ := hfx' p hpxs
        by_cases hgt : jsGt mx.2 x.2 = true
        · rw [if_pos hgt]
          exact ihm p hpxs
        · rw [if_neg hgt]
          have h1 : jsGe (JSNum.fin qx) (JSNum.fin qm) = true := by
            rw [hqm, hqx] at hgt
            rw [Bool.not_eq_true] at hgt
            exact jsGe_of_not_gt_fin hgt
          have h2 := ihm p hpxs
          rw [hqm, hqp] at h2
          rw [hqx, hqp]
          exact jsGe_trans_fin h1 h2

theorem round_1001 : numToFixed2 (JSNum.fin (1001 / 1000)) = JSNum.fin 1 := by
  rw [numToFixed2_fin,
    qToFixed2_eval (1001 / 1000) 1 100 (by norm_num) (by norm_num) (by norm_num)]

theorem round_1004 : numToFixed2 (JSNum.fin (251 / 250)) = JSNum.fin 1 := by
  rw [numToFixed2_fin,
    qToFixed2_eval (251 / 250) 1 100 (by norm_num) (by norm_num) (by norm_num)]

theorem filtered_BA : filtered (normalizeData [rowB, rowA]) "All" 1 12 = [txB, txA] := by
  simp only [normalizeData, List.map]
  rw [norm_rowB, norm_rowA]
  refine filtered_all_month1 _ ?_
  intro t ht
  rw [List.mem_cons, List.mem_singleton] at ht
  rcases ht with rfl | rfl
  · rfl
  · rfl

theorem salesByTime_BA :
    salesByTime [txB, txA] =
      [("Morning", JSNum.fin 1), ("Afternoon", JSNum.fin 0), ("Night", JSNum.fin 1)] := by
  have hM : slotRows [txB, txA] "Morning" = [txB] := by
    rw [slotRows_cons, if_pos (by decide), slotRows_cons, if_neg (by decide)]
    rfl
  have hA : slotRows [txB, txA] "Afternoon" = [] := by
    rw [slotRows_cons, if_neg (by decide), slotRows_cons, if_neg (by decide)]
    rfl
  have hN : slotRows [txB, txA] "Night" = [txA] := by
    rw [slotRows_cons, if_neg (by decide), slotRows_cons, if_pos (by decide)]
    rfl
  have htB : totalSales [txB] = JSNum.fin (1001 / 1000) := by
    have h0 : totalSales [txB] = JSNum.fin (0 + 1001 / 1000) := rfl
    rw [h0]
    norm_num
  have htA : totalSales [txA] = JSNum.fin (251 / 250) := by
    have h0 : totalSales [txA] = JSNum.fin (0 + 251 / 250) := rfl
    rw [h0]
    norm_num
  rw [salesByTime, timeSlots]
  simp only [List.map]
  rw [slotSum, slotSum, slotSum, hM, hA, hN, htB, htA,
    (by rfl : totalSales ([] : List Tx) = JSNum.fin 0), round_1001, round_1004, round_0]

/-- C8 counterexample: Morning has raw sales 1.001 and Night 1.004; both
round to 1.00, so the stable sort over the rounded `Sales` values keeps
Morning first and `peakTime` reports "Morning", while the slot with the
maximum raw summed sales is "Night" — refuting "the slot with the maximum
summed sales". -/
theorem C8_counterexample :
    peakTime (filtered (normalizeData [rowB, rowA]) "All" 1 12) = "Morning" ∧
      peakTimeSpecRaw (filtered (normalizeData [rowB, rowA]) "All" 1 12) = "Night" ∧
      peakTime (filtered (normalizeData [rowB, rowA]) "All" 1 12) ≠
        peakTimeSpecRaw (filtered (normalizeData [rowB, rowA]) "All" 1 12) := by
  have hgt10 : jsGt (JSNum.fin 1) (JSNum.fin 0) = true := by norm_num [jsGt]
  have hgt11 : jsGt (JSNum.fin 1) (JSNum.fin 1) = false := by norm_num [jsGt]
  have hpeak : peakTime [txB, txA] = "Morning" := by
    rw [peakTime, salesByTime_BA]
    rw [sortDesc, sortDesc, sortDesc, sortDesc, insertDesc, insertDesc, hgt10, if_pos rfl,
      insertDesc, insertDesc, hgt11]
    simp
  have hspec : peakTimeSpecRaw [txB, txA] = "Night" := by
    have hM : slotRows [txB, txA] "Morning" = [txB] := by
      rw [slotRows_cons, if_pos (by decide), slotRows_cons, if_neg (by decide)]
      rfl
    have hA : slotRows [txB, txA] "Afternoon" = [] := by
      rw [slotRows_cons, if_neg (by decide), slotRows_cons, if_neg (by decide)]
      rfl
    have hN : slotRows [txB, txA] "Night" = [txA] := by
      rw [slotRows_cons, if_neg (by decide), slotRows_cons, if_pos (by decide)]
      rfl
    have htB : totalSales [txB] = JSNum.fin (1001 / 1000) := by
      have h0 : totalSales [txB] = JSNum.fin (0 + 1001 / 1000) := rfl
      rw [h0]
      norm_num
    have htA : totalSales [txA] = JSNum.fin (251 / 250) := by
      have h0 : totalSales [txA] = JSNum.fin (0 + 251 / 250) := rfl
      rw [h0]
      norm_num
    have hgtNA : jsGt (JSNum.fin (251 / 250)) (JSNum.fin 0) = true := by norm_num [jsGt]
    have hgtNM : jsGt (JSNum.fin (251 / 250)) (JSNum.fin (1001 / 1000)) = true := by
      norm_num [jsGt]
    rw [peakTimeSpecRaw, timeSlots]
    simp only [List.map]
    rw [slotSum, slotSum, slotSum, hM, hA, hN, htB, htA,
      (by rfl : totalSales ([] : List Tx) = JSNum.fin 0)]
    rw [firstMax, firstMax, firstMax, firstMax]
    simp only [hgtNA, hgtNM, if_true]
  rw [filtered_BA, hpeak, hspec]
  refine ⟨rfl, rfl, by decide⟩

/-- C8 (amended): `peakTime` is the first slot (in the fixed order Morning,
Afternoon, Night) attaining the maximum of the ROUNDED per-slot sums shown
in the chart — rounding can collapse distinct raw sums into a tie, which the
stable sort then resolves toward the earlier slot — it is never the `-`
sentinel (the slot list is fixed and non-empty), and when every row's sales
is finite its slot's rounded sum is `>=` every slot's rounded sum. -/
theorem C8_peak (txs : List Tx) :
    ∃ m : String × JSNum, firstMax (salesByTime txs) = some m ∧
      peakTime txs = m.1 ∧ peakTime txs ≠ "-" ∧ m.1 ∈ timeSlots ∧
      (allFinSales txs → ∀ p ∈ salesByTime txs, jsGe m.2 p.2 = true) := by
  obtain ⟨m, hm⟩ : ∃ m, firstMax (salesByTime txs) = some m := by
    cases hf : firstMax (salesByTime txs) with
    | some m => exact ⟨m, rfl⟩
    | none =>
      have hnil := firstMax_eq_none hf
      rw [salesByTime, timeSlots] at hnil
      simp [List.map] at hnil
  have hmem : m ∈ salesByTime txs := firstMax_mem hm
  have hm1 : m.1 ∈ timeSlots := by
    rw [salesByTime] at hmem
    obtain ⟨slot, hslot, hpe⟩ := List.mem_map.mp hmem
    rw [← hpe]
    exact hslot
  have hne : m.1 ≠ "" := by
    rw [timeSlots, List.mem_cons, List.mem_cons, List.mem_singleton] at hm1
    rcases hm1 with h | h | h <;> rw [h] <;> decide
  have hhead : (sortDesc (salesByTime txs)).head? = some m := by
    rw [head_sortDesc_eq_firstMax]
    exact hm
  have hnd : m.1 ≠ "-" := by
    rw [timeSlots, List.mem_cons, List.mem_cons, List.mem_singleton] at hm1
    rcases hm1 with h | h | h <;> rw [h] <;> decide
  have hm1' : m.1 ∈ timeSlots := hm1
  have hpeak : peakTime txs = m.1 := by
    rw [peakTime]
    cases hs : sortDesc (salesByTime txs) with
    | nil =>
      rw [hs] at hhead
      cases hhead
    | cons p rest =>
      rw [hs] at hhead
      rw [List.head?_cons] at hhead
      have hp : p = m := by injection hhead
      subst hp
      show (if p.1 = "" then "-" else p.1) = p.1
      rw [if_neg hne]
  refine ⟨m, hm, hpeak, by rw [hpeak]; exact hnd, hm1', ?_⟩
  intro hfin
  apply firstMax_ge _ m _ hm
  intro p hp
  rw [salesByTime] at hp
  obtain ⟨slot, hslot, hpe⟩ := List.mem_map.mp hp
  rw [← hpe]
  have hts := totalSales_eq_sumQ _ (allFin_slotRows txs slot hfin)
  refine ⟨qToFixed2 (sumQ (slotRows txs slot)), ?_⟩
  show numToFixed2 (slotSum txs slot) = _
  rw [slotSum, hts, numToFixed2_fin]

/-- C8 witness: the amended theorem applied at a one-row Morning subset
with finite sales — the reported peak carries the maximal rounded sum. -/
theorem C8_witness :
    ∃ m : String × JSNum, peakTime [txLatte] = m.1 ∧
      ∀ p ∈ salesByTime [txLatte], jsGe m.2 p.2 = true := by
  obtain ⟨m, _, hp, _, _, hmax⟩ := C8_peak [txLatte]
  refine ⟨m, hp, hmax ?_⟩
  intro t ht
  rw [List.mem_singleton] at ht
  exact ⟨5, by rw [ht]; rfl⟩

theorem insertDesc_length {α : Type} (x : α × JSNum) (l : List (α × JSNum)) :
    (insertDesc x l).length = l.length + 1 := by
  induction l with
  | nil => rfl
  | cons y ys ih =>
    rw [insertDesc]
    split
    · rw [List.length_cons, ih, List.length_cons]
    · rfl

theorem sortDesc_length {α : Type} (l : List (α × JSNum)) :
    (sortDesc l).length = l.length := by
  induction l with
  | nil => rfl
  | cons x xs ih =>
    rw [sortDesc, insertDesc_length, ih, List.length_cons]

theorem mem_insertDesc {α : Type} {z x : α × JSNum} {l : List (α × JSNum)}
    (h : z ∈ insertDesc x l) : z = x ∨ z ∈ l := by
  induction l with
  | nil =>
    rw [insertDesc, List.mem_singleton] at h
    exact Or.inl h
  | cons y ys ih =>
    rw [insertDesc] at h
    split at h
    · rcases List.mem_cons.mp h with rfl | h2
      · exact Or.inr (List.mem_cons_self _ _)
      · rcases ih h2 with h3 | h3
        · exact Or.inl h3
        · exact Or.inr (List.mem_cons_of_mem _ h3)
    · rcases List.mem_cons.mp h with rfl | h2
      · exact Or.inl rfl
      · exact Or.inr h2

theorem mem_sortDesc {α : Type} {z : α × JSNum} {l : List (α × JSNum)}
    (h : z ∈ sortDesc l) : z ∈ l := by
  induction l generalizing z with
  | nil => exact h
  | cons x xs ih =>
    rw [sortDesc] at h
    rcases mem_insertDesc h with rfl | h2
    · exact List.mem_cons_self _ _
    · exact List.mem_cons_of_mem _ (ih h2)

theorem pairwise_insertDesc (x : Cell × JSNum) (l : List (Cell × JSNum))
    (hx : ∃ q : ℚ, x.2 = JSNum.fin q) (hl : ∀ p ∈ l, ∃ q : ℚ, p.2 = JSNum.fin q)
    (h : l.Pairwise (fun a b => jsGe a.2 b.2 = true)) :
    (insertDesc x l).Pairwise (fun a b => jsGe a.2 b.2 = true) := by
  induction l with
  | nil =>
    rw [insertDesc]
    exact List.pairwise_singleton _ _
  | cons y ys ih =>
    obtain ⟨qx, hqx⟩ := hx
    obtain ⟨qy, hqy⟩ := hl y (List.mem_cons_self _ _)
    have hys : ∀ p ∈ ys, ∃ q : ℚ, p.2 = JSNum.fin q :=
      fun u hu => hl u (List.mem_cons_of_mem _ hu)
    rw [List.pairwise_cons] at h
    rw [insertDesc]
    split
    · rename_i hgt
      rw [List.pairwise_cons]
      constructor
      · intro z hz
        rcases mem_insertDesc hz with rfl | h2
        · rw [hqy, hqx]
          rw [hqy, hqx] at hgt
          exact jsGe_of_gt_fin hgt
        · exact h.1 z h2
      · exact ih hys h.2
    · rename_i hgt
      rw [Bool.not_eq_true] at hgt
      rw [List.pairwise_cons]
      constructor
      · intro z hz
        rcases List.mem_cons.mp hz with rfl | h2
        · rw [hqx, hqy]
          rw [hqy, hqx] at hgt
          exact jsGe_of_not_gt_fin hgt
        · obtain ⟨qz, hqz⟩ := hys z h2
          have h1 : jsGe (JSNum.fin qx) (JSNum.fin qy) = true := by
            rw [hqy, hqx] at hgt
            exact jsGe_of_not_gt_fin hgt
          have h2' := h.1 z h2
          rw [hqy, hqz] at h2'
          rw [hqx, hqz]
          exact jsGe_trans_fin h1 h2'
      · rw [List.pairwise_cons]
        exact h

theorem pairwise_sortDesc (l : List (Cell × JSNum))
    (hl : ∀ p ∈ l, ∃ q : ℚ, p.2 = JSNum.fin q) :
    (sortDesc l).Pairwise (fun a b => jsGe a.2 b.2 = true) := by
  induction l with
  | nil => exact List.Pairwise.nil
  | cons x xs ih =>
    rw [sortDesc]
    refine pairwise_insertDesc x (sortDesc xs) (hl x (List.mem_cons_self _ _)) ?_ ?_
    · intro p hp
      exact hl p (List.mem_cons_of_mem _ (mem_sortDesc hp))
    · exact ih (fun u hu => hl u (List.mem_cons_of_mem _ hu))

theorem keys_nodup_mapSet (m : List (Cell × JSNum)) (k : Cell) (v : JSNum)
    (h : (m.map (fun p => p.1)).Nodup) : ((mapSet m k v).map (fun p => p.1)).Nodup := by
  rw [keys_mapSet]
  split
  · exact h
  · rename_i hany
    rw [List.nodup_append]
    refine ⟨h, List.nodup_singleton _, ?_⟩
    intro a ha hb
    rw [List.mem_singleton] at hb
    subst hb
    obtain ⟨p, hp, hpk⟩ := List.mem_map.mp ha
    exact hany (List.any_eq_true.mpr ⟨p, hp, decide_eq_true hpk⟩)

theorem keys_sub_mapSet (m : List (Cell × JSNum)) (k k' : Cell) (v : JSNum)
    (h : k' ∈ (mapSet m k v).map (fun p => p.1)) :
    k' ∈ m.map (fun p => p.1) ∨ k' = k := by
  rw [keys_mapSet] at h
  split at h
  · exact Or.inl h
  · rcases List.mem_append.mp h with h2 | h2
    · exact Or.inl h2
    · exact Or.inr (List.mem_singleton.mp h2)

theorem keys_foldl_nodup (txs : List Tx) :
    ∀ (m : List (Cell × JSNum)), (m.map (fun p => p.1)).Nodup →
      ((txs.foldl groupStep m).map (fun p => p.1)).Nodup := by
  induction txs with
  | nil =>
    intro m h
    exact h
  | cons t ts ih =>
    intro m h
    rw [List.foldl_cons]
    exact ih _ (keys_nodup_mapSet _ _ _ h)

theorem keys_foldl_sub (txs : List Tx) :
    ∀ (m : List (Cell × JSNum)) (k : Cell),
      k ∈ (txs.foldl groupStep m).map (fun p => p.1) →
      k ∈ m.map (fun p => p.1) ∨ k ∈ txs.map (fun t => t.coffee_name) := by
  induction txs with
  | nil =>
    intro m k h
    exact Or.inl h
  | cons t ts ih =>
    intro m k h
    rw [List.foldl_cons] at h
    rcases ih _ k h with h2 | h2
    · rcases keys_sub_mapSet _ _ _ _ h2 with h3 | h3
      · exact Or.inl h3
      · right
        rw [h3, List.map_cons]
        exact List.mem_cons_self _ _
    · right
      rw [List.map_cons]
      exact List.mem_cons_of_mem _ h2

theorem keys_groupTotals_nodup (txs : List Tx) :
    ((groupTotals txs).map (fun p => p.1)).Nodup := by
  rw [groupTotals_eq_foldl]
  exact keys_foldl_nodup txs [] List.nodup_nil

theorem mem_keys_groupTotals_iff (txs : List Tx) (k : Cell) :
    k ∈ (groupTotals txs).map (fun p => p.1) ↔
      k ∈ txs.map (fun t => t.coffee_name) := by
  constructor
  · intro h
    rw [groupTotals_eq_foldl] at h
    rcases keys_foldl_sub txs [] k h with h2 | h2
    · cases h2
    · exact h2
  · intro h
    obtain ⟨t, ht, hk⟩ := List.mem_map.mp h
    rw [← hk]
    exact mem_keys_groupTotals txs t ht

theorem groupTotals_length (txs : List Tx) :
    (groupTotals txs).length = (txs.map (fun t => t.coffee_name)).dedup.length := by
  have h1 : (groupTotals txs).length = ((groupTotals txs).map (fun p => p.1)).length := by
    rw [List.length_map]
  rw [h1]
  have h2 := keys_groupTotals_nodup txs
  rw [← List.dedup_eq_self.mpr h2, ← List.card_toFinset, ← List.card_toFinset]
  congr 1
  apply Finset.ext
  intro a
  rw [List.mem_toFinset, List.mem_toFinset]
  exact mem_keys_groupTotals_iff txs a

theorem mapGet_fin {m : List (Cell × JSNum)} (hm : ∀ p ∈ m, ∃ q : ℚ, p.2 = JSNum.fin q)
    {k : Cell} {v : JSNum} (h : mapGet m k = some v) : ∃ q : ℚ, v = JSNum.fin q := by
  rw [mapGet] at h
  obtain ⟨p, hp, hpv⟩ := Option.map_eq_some'.mp h
  obtain ⟨q, hq⟩ := hm p (List.mem_of_find?_eq_some hp)
  exact ⟨q, by rw [← hpv, hq]⟩

theorem mem_mapSet {m : List (Cell × JSNum)} {k : Cell} {v : JSNum} {p : Cell × JSNum}
    (h : p ∈ mapSet m k v) : p = (k, v) ∨ p ∈ m := by
  rw [mapSet] at h
  split at h
  · obtain ⟨p', hp', hpe⟩ := List.mem_map.mp h
    by_cases he : p'.1 = k
    · rw [if_pos he] at hpe
      exact Or.inl hpe.symm
    · rw [if_neg he] at hpe
      exact Or.inr (hpe ▸ hp')
  · rcases List.mem_append.mp h with h2 | h2
    · exact Or.inr h2
    · exact Or.inl (List.mem_singleton.mp h2)

theorem vals_fin_foldl (txs : List Tx) :
    ∀ (m : List (Cell × JSNum)), (∀ p ∈ m, ∃ q : ℚ, p.2 = JSNum.fin q) →
      allFinSales txs →
      ∀ p ∈ txs.foldl groupStep m, ∃ q : ℚ, p.2 = JSNum.fin q := by
  induction txs with
  | nil =>
    intro m hm _ p hp
    exact hm p hp
  | cons t ts ih =>
    intro m hm hfin p hp
    rw [List.foldl_cons] at hp
    refine ih _ ?_ (fun u hu => hfin u (List.mem_cons_of_mem _ hu)) p hp
    intro p' hp'
    rcases mem_mapSet hp' with rfl | h2
    · obtain ⟨qs, hqs⟩ := hfin t (List.mem_cons_self _ _)
      have hcur : ∃ qc : ℚ, (match mapGet m t.coffee_name with
          | some v => if numTruthy v then v else JSNum.fin 0
          | none => JSNum.fin 0) = JSNum.fin qc := by
        cases hg : mapGet m t.coffee_name with
        | none => exact ⟨0, rfl⟩
        | some v =>
          obtain ⟨q, hq⟩ := mapGet_fin hm hg
          by_cases ht : numTruthy v = true
          · exact ⟨q, by simp only [ht, if_true]; exact hq⟩
          · exact ⟨0, by simp only [ht]; simp⟩
      obtain ⟨qc, hqc⟩ := hcur
      refine ⟨qc + qs, ?_⟩
      show jsAdd _ t.sales = _
      rw [hqc, hqs]
      rfl
    · exact hm p' h2

theorem groupTotals_vals_fin (txs : List Tx) (h : allFinSales txs) :
    ∀ p ∈ groupTotals txs, ∃ q : ℚ, p.2 = JSNum.fin q := by
  rw [groupTotals_eq_foldl]
  refine vals_fin_foldl txs [] ?_ h
  intro p hp
  cases hp

/-- C7 (amended): `top3Overall` groups by coffee name in encounter order,
rounds each group total to 2 decimals FIRST, then stable-sorts descending
by the rounded total and takes the first 3.  Its length is at most 3 and
equals the number of distinct names when that number is below 3, and when
every row's sales is finite its entries are in non-increasing order of
(rounded) total.  Sorting on rounded rather than raw totals is observable:
rounding can create ties that the stable sort resolves by encounter order
against the raw-total order. -/
theorem C7_top3 (txs : List Tx) :
    (top3Overall txs).length ≤ 3 ∧
      ((txs.map (fun t => t.coffee_name)).dedup.length < 3 →
        (top3Overall txs).length = (txs.map (fun t => t.coffee_name)).dedup.length) ∧
      (allFinSales txs →
        (top3Overall txs).Pairwise (fun a b => jsGe a.2 b.2 = true)) := by
  have hlen : (top3Overall txs).length =
      min 3 (txs.map (fun t => t.coffee_name)).dedup.length := by
    rw [top3Overall, List.length_take, sortDesc_length, List.length_map, groupTotals_length]
  refine ⟨?_, ?_, ?_⟩
  · rw [hlen]
    exact min_le_left _ _
  · intro h
    rw [hlen]
    omega
  · intro hfin
    rw [top3Overall]
    refine List.Pairwise.sublist (List.take_sublist _ _) ?_
    apply pairwise_sortDesc
    intro p hp
    obtain ⟨p', hp', hpe⟩ := List.mem_map.mp hp
    obtain ⟨q, hq⟩ := groupTotals_vals_fin txs hfin p' hp'
    rw [← hpe]
    refine ⟨qToFixed2 q, ?_⟩
    show numToFixed2 p'.2 = _
    rw [hq, numToFixed2_fin]

/-- C7 witness: the amended theorem applied at a one-product subset with
finite sales: the length equals the distinct-name count and the entries
are sorted. -/
theorem C7_witness :
    (top3Overall [txLatte]).length =
        ([txLatte].map (fun t => t.coffee_name)).dedup.length ∧
      (top3Overall [txLatte]).Pairwise (fun a b => jsGe a.2 b.2 = true) :=
  ⟨(C7_top3 [txLatte]).2.1 (by decide),
   (C7_top3 [txLatte]).2.2 (by
     intro t ht
     rw [List.mem_singleton] at ht
     exact ⟨5, by rw [ht]; rfl⟩)⟩

theorem groupTotals_BA :
    groupTotals [txB, txA] =
      [(Cell.str "B", JSNum.fin (1001 / 1000)), (Cell.str "A", JSNum.fin (251 / 250))] := by
  simp [groupTotals, List.foldl, mapGet, mapSet, txB, txA, jsAdd,
    eq_false (by decide : ¬ ("B" = "A")), eq_false (by decide : ¬ ("A" = "B")),
    numTruthy]

/-- C7 counterexample: products B (raw total 1.001, encountered first) and
A (raw total 1.004).  The code rounds before sorting, so both totals become
1.00 and the stable sort keeps B first; the claim's algorithm — sort
descending by (raw) total, take 3, then round the reported totals — puts A
first.  The two outputs differ. -/
theorem C7_counterexample :
    top3Overall (filtered (normalizeData [rowB, rowA]) "All" 1 12) =
        [(Cell.str "B", JSNum.fin 1), (Cell.str "A", JSNum.fin 1)] ∧
      top3OverallSpec (filtered (normalizeData [rowB, rowA]) "All" 1 12) =
        [(Cell.str "A", JSNum.fin 1), (Cell.str "B", JSNum.fin 1)] ∧
      top3Overall (filtered (normalizeData [rowB, rowA]) "All" 1 12) ≠
        top3OverallSpec (filtered (normalizeData [rowB, rowA]) "All" 1 12) := by
  have h1 : top3Overall [txB, txA] =
      [(Cell.str "B", JSNum.fin 1), (Cell.str "A", JSNum.fin 1)] := by
    rw [top3Overall, groupTotals_BA]
    simp only [List.map, round_1001, round_1004]
    rw [sortDesc, sortDesc, sortDesc, insertDesc, insertDesc,
      (by norm_num [jsGt] : jsGt (JSNum.fin 1) (JSNum.fin 1) = false)]
    simp [List.take]
  have h2 : top3OverallSpec [txB, txA] =
      [(Cell.str "A", JSNum.fin 1), (Cell.str "B", JSNum.fin 1)] := by
    rw [top3OverallSpec, groupTotals_BA]
    rw [sortDesc, sortDesc, sortDesc, insertDesc, insertDesc,
      (by norm_num [jsGt] :
        jsGt (JSNum.fin (251 / 250)) (JSNum.fin (1001 / 1000)) = true)]
    simp only [if_true, List.take, List.map, round_1001, round_1004]
  rw [filtered_BA, h1, h2]
  refine ⟨rfl, rfl, ?_⟩
  intro h
  have := (List.cons.inj h).1
  have h3 : Cell.str "B" = Cell.str "A" := congrArg Prod.fst this
  have h4 : "B" = "A" := Cell.str.inj h3
  exact absurd h4 (by decide)
